import Mathlib

/-!
Shallow embedding of the rfapi-python client library (recordedfuture/rfapi-python).

The repository ships two generations of the client:
  * `src/rfapi/apiclient.py`   — the older `ApiClient` (`query`, `paged_query`);
  * `src/rfapi-red/rawapiclient.py` + `src/rfapi-red/apiclient.py` — the newer
    `RawApiClient` on top of `BaseApiClient` (retries, warning on embedded limit,
    aggregate-query rejection).
Shared helpers live in `src/rfapi/query.py` (`BaseQueryResponse` and friends,
`get_query_type`), `src/rfapi/dotindex.py` and `src/rfapi-red/dotindex.py`
(identical `dot_index`), `src/rfapi/error.py`, and the two `auth.py` files.

Python values flowing through these functions (parsed JSON, dict queries,
`dict.items()` tuples) are embedded as `JVal`.  Machine integers do not occur;
Python ints are unbounded, so `Int` is the faithful carrier.  Fallible Python
code (KeyError, TypeError, raised library errors) is embedded with `Except`.

Modelling notes, fixed once here:
  * Python 3 semantics are used where Python 2 differs (`None <= int` raises
    TypeError; `dict.items()` is a view, embedded as the materialised list of
    pairs, which under `[x[key] for x in data]` hits the same TypeError as the
    py3 view does under `data[key]`).
  * `==` between embedded values (`JVal.beq`) compares dict entries in key
    order; the claims only ever compare numbers and strings, where this agrees
    with Python.
  * CSV decoding by the `csv` module is external to the repository: a server
    response carries both its raw text (`textBody`) and the decoded line list
    (`csvRows`, header line first), and `csv.DictReader` consumption order
    (the `fieldnames` property consumes the header line; `next()` then yields
    the first not-yet-consumed line) is embedded directly on `csvRows`.
    Ragged rows (DictReader's restkey/restval padding) are not exercised by
    any claim and rows are combined with plain `List.zip`.
  * HTTP transport is a scripted list of `TransportEvent`s: each attempted
    request consumes the next event (a full server response, or a read
    timeout).
-/

/-- Embedded Python/JSON value.  `pairv` is a Python 2-tuple `(key, value)` as
produced by `dict.items()` in `dot_index`. -/
inductive JVal where
  | null : JVal
  | bool : Bool → JVal
  | num : Int → JVal
  | str : String → JVal
  | arr : List JVal → JVal
  | obj : List (String × JVal) → JVal
  | pairv : String → JVal → JVal

mutual

/-- Python `==` on embedded values (dict comparison is in key order; see the
modelling notes). -/
def JVal.beq : JVal → JVal → Bool
  | .null, .null => true
  | .bool a, .bool b => a == b
  | .num a, .num b => a == b
  | .str a, .str b => a == b
  | .arr as, .arr bs => JVal.beqList as bs
  | .obj as, .obj bs => JVal.beqObj as bs
  | .pairv k a, .pairv j b => k == j && JVal.beq a b
  | _, _ => false

/-- Elementwise `==` on embedded lists. -/
def JVal.beqList : List JVal → List JVal → Bool
  | [], [] => true
  | a :: as, b :: bs => JVal.beq a b && JVal.beqList as bs
  | _, _ => false

/-- Entrywise `==` on dict entry lists. -/
def JVal.beqObj : List (String × JVal) → List (String × JVal) → Bool
  | [], [] => true
  | (k, a) :: as, (j, b) :: bs => k == j && JVal.beq a b && JVal.beqObj as bs
  | _, _ => false

end

/-- Association-list lookup: Python `d[k]` / `d.get(k)` on a dict embedded as
its insertion-ordered entry list. -/
def lookupKV (kvs : List (String × JVal)) (k : String) : Option JVal :=
  match kvs with
  | [] => none
  | (j, v) :: rest => if j == k then some v else lookupKV rest k

/-- Python `d[k] = v` on a dict: replace in place, or append a new entry. -/
def dictSet (kvs : List (String × JVal)) (k : String) (v : JVal) :
    List (String × JVal) :=
  match kvs with
  | [] => [(k, v)]
  | (j, w) :: rest => if j == k then (j, v) :: rest else (j, w) :: dictSet rest k v

/-- Exceptions of the Python runtime that the embedded code can raise. -/
inductive PyErr where
  | keyError : PyErr
  | typeError : PyErr
  | attrError : PyErr
  | valueError : PyErr
  | nameError : PyErr
deriving DecidableEq

/-- Python `v[key]` for a string key: dict lookup (KeyError when absent);
strings, lists, tuples and scalars raise TypeError. -/
def pyIndex (v : JVal) (key : String) : Except PyErr JVal :=
  match v with
  | .obj kvs =>
    match lookupKV kvs key with
    | some w => .ok w
    | none => .error .keyError
  | _ => .error .typeError

/-- Characters `needle` occur contiguously inside `hay`. -/
def charsHasSub (needle : List Char) : List Char → Bool
  | [] => needle.isEmpty
  | c :: rest => needle.isPrefixOf (c :: rest) || charsHasSub needle rest

/-- Python `sub in s` on strings (substring test). -/
def substrB (s sub : String) : Bool :=
  charsHasSub sub.toList s.toList

/-- Python `key in v`: key membership for dicts, substring for strings,
element membership for lists; scalars are not iterable (TypeError). -/
def pyContains (v : JVal) (key : String) : Except PyErr Bool :=
  match v with
  | .obj kvs => .ok (kvs.any (fun kv => kv.1 == key))
  | .str s => .ok (substrB s key)
  | .arr xs => .ok (xs.any (fun x => JVal.beq x (.str key)))
  | _ => .error .typeError

/-- Python `int(v)` / `long(v)` on an embedded value (already-numeric values
pass through; anything else raises). -/
def pyToInt (v : JVal) : Except PyErr Int :=
  match v with
  | .num k => .ok k
  | _ => .error .typeError

/-- Python `"a.b.c".split('.')` — `str.split` with a one-character
separator — on the character list. -/
def splitDotsChars : List Char → List (List Char)
  | [] => [[]]
  | c :: cs =>
    if c == '.' then [] :: splitDotsChars cs
    else
      match splitDotsChars cs with
      | [] => [[c]]
      | g :: gs => (c :: g) :: gs

/-- Python `index.split('.')`. -/
def splitDots (s : String) : List String :=
  (splitDotsChars s.toList).map (fun cs => String.mk cs)

/-- The list comprehension `[x[key] for x in data]`: first failing element
aborts with its exception. -/
def navList (key : String) : List JVal → Except PyErr (List JVal)
  | [] => .ok []
  | x :: xs => (pyIndex x key).bind (fun w => (navList key xs).map (fun ws => w :: ws))

/-- One step of `dot_index`'s loop body (`src/rfapi/dotindex.py` lines 19-23):
broadcast the key over a list, otherwise index directly. -/
def navKey (data : JVal) (key : String) : Except PyErr JVal :=
  match data with
  | .arr xs => (navList key xs).map JVal.arr
  | _ => pyIndex data key

/-- The whole `for key in index.split('.')` loop of `dot_index`, over an
explicit key list. -/
def navKeys (keys : List String) (data : JVal) : Except PyErr JVal :=
  match keys with
  | [] => .ok data
  | k :: ks => (navKey data k).bind (fun d => navKeys ks d)

/-- The final result shaping of `dot_index` (lines 24-29): a list stays a
list, a dict becomes its `items()`, a scalar is wrapped in a singleton. -/
def itemsOf (data : JVal) : List JVal :=
  match data with
  | .arr xs => xs
  | .obj kvs => kvs.map (fun kv => JVal.pairv kv.1 kv.2)
  | v => [v]

/-- Embeds `dot_index(index, data)` from `src/rfapi/dotindex.py` (byte-identical in
`src/rfapi-red/dotindex.py`).  An empty index string is falsy, so the key loop
is skipped. -/
def dotIndex (index : String) (data : JVal) : Except PyErr (List JVal) :=
  let keys := if index == "" then [] else splitDots index
  (navKeys keys data).map itemsOf

/-! ### Server responses and query-response wrappers (`src/rfapi/query.py`) -/

/-- One raw HTTP response as the transport layer delivers it.  `jsonBody` is
`some v` exactly when `response.json()` succeeds with value `v`; `csvRows` is
the `csv`-module decoding of `textBody` (header line first).  The three
`X-RF-*` headers are carried already `int`-converted where the code converts
them (they are numeric strings on the wire). -/
structure ServerResponse where
  status : Nat
  contentType : Option String
  jsonBody : Option JVal
  textBody : String
  csvRows : List (List String)
  returnedCountH : Option Int
  totalCountH : Option Int
  nextPageStartH : Option String

/-- Embeds `BaseQueryResponse.next_page_start`: `headers.get("X-RF-NEXT-PAGE-START")`. -/
def nextPageStart (r : ServerResponse) : Option String :=
  r.nextPageStartH

/-- Embeds `BaseQueryResponse.returned_count` (`src/rfapi/query.py` lines 95-104):
header first, then the Connect-API `counts.returned` field (a raw value,
JSON `null` mapping to Python `None`), then `int(result['result']['count'])`;
absent otherwise.  `res` is `self.result` (a dict for JSON responses, the
response text for CSV/other). -/
def returnedCount (res : JVal) (r : ServerResponse) : Except PyErr (Option JVal) :=
  match r.returnedCountH with
  | some k => .ok (some (.num k))
  | none =>
    (pyContains res "counts").bind (fun b =>
      if b then
        (pyIndex res "counts").bind (fun c =>
          match c with
          | .obj kvs =>
            match lookupKV kvs "returned" with
            | some .null => .ok none
            | some v => .ok (some v)
            | none => .ok none
          | _ => .error .attrError)
      else
        (pyContains res "result").bind (fun b2 =>
          if b2 then
            (pyIndex res "result").bind (fun rv =>
              (pyIndex rv "count").bind (fun cv =>
                (pyToInt cv).map (fun k => some (.num k))))
          else .ok none))

/-- Embeds `BaseQueryResponse.total_count` (lines 123-134): header first, then
`long(counts['total'])` when present (an `elif` chain, so a `counts` dict
without `total` yields `None`), then `long(result['result']['total_count'])`. -/
def totalCount (res : JVal) (r : ServerResponse) : Except PyErr (Option Int) :=
  match r.totalCountH with
  | some k => .ok (some k)
  | none =>
    (pyContains res "counts").bind (fun b =>
      if b then
        (pyIndex res "counts").bind (fun c =>
          (pyContains c "total").bind (fun b2 =>
            if b2 then
              (pyIndex c "total").bind (fun tv =>
                (pyToInt tv).map (fun k => some k))
            else .ok none))
      else
        (pyContains res "result").bind (fun b3 =>
          if b3 then
            (pyIndex res "result").bind (fun rv =>
              (pyIndex rv "total_count").bind (fun tv =>
                (pyToInt tv).map (fun k => some k)))
          else .ok none))

/-- Python `returned == total` with `returned` an embedded value and `total`
an int-or-None: only a number can compare equal, `x == None` is `False`. -/
def numEqInt (rv : JVal) (t : Int) : Bool :=
  match rv with
  | .num k => k == t
  | _ => false

/-- Embeds `BaseQueryResponse.has_more_results` (lines 106-115): `False` when no
cursor; `False` when `returned_count` is present and equals `total_count`;
`True` otherwise.  Evaluating the two count properties can itself raise. -/
def hasMoreResults (res : JVal) (r : ServerResponse) : Except PyErr Bool :=
  match nextPageStart r with
  | none => .ok false
  | some _ =>
    (returnedCount res r).bind (fun rc =>
      match rc with
      | none => .ok true
      | some rv =>
        (totalCount res r).bind (fun tc =>
          let eq := match tc with
            | none => false
            | some t => numEqInt rv t
          .ok (if eq then false else true)))

/-- The wrapper the clients hand back: `JSONQueryResponse` carries the parsed
body, `CSVQueryResponse`/`BaseQueryResponse` carry `response.text`. -/
inductive QueryResponse where
  | jsonQR (result : JVal) (r : ServerResponse)
  | csvQR (text : String) (r : ServerResponse)
  | baseQR (text : String) (r : ServerResponse)

/-- Embeds `self.result` of a wrapper (the response text is a Python `str`). -/
def resultOf : QueryResponse → JVal
  | .jsonQR res _ => res
  | .csvQR t _ => .str t
  | .baseQR t _ => .str t

/-- The underlying raw response of a wrapper. -/
def respOf : QueryResponse → ServerResponse
  | .jsonQR _ r => r
  | .csvQR _ r => r
  | .baseQR _ r => r

/-! ### Queries (`src/rfapi/query.py` `get_query_type`, dict plumbing) -/

/-- A query is a Python dict. -/
abbrev Query := List (String × JVal)

/-- Key order of `_QUERY_TYPE_MAP` (dict insertion order, Python 3.7+). -/
def QUERY_TYPE_KEYS : List String :=
  ["instance", "reference", "entity", "source", "cluster"]

/-- Embeds `get_query_type`: the first map key present in the query, else `None`. -/
def getQueryType (q : Query) : Option String :=
  QUERY_TYPE_KEYS.find? (fun t => (lookupKV q t).isSome)

/-- Errors raised by the embedded clients.  `requestsHTTPError` is the
`requests.HTTPError` from `raise_for_status` (it carries its response);
`pyError` wraps an escaping Python runtime exception.  The old client
(`src/rfapi/apiclient.py`) imports `UnknownQueryTypeError` whose class
definition is not under `src/`; modelled from the spec: the spec's §7 error
taxonomy lists `UnknownQueryType` as its own taxon beside `InvalidQuery`, so
it is embedded as a distinct constructor, not as an `InvalidRFQError`. -/
inductive RfError where
  | missingAuth : RfError
  | remoteServerFailure : RfError
  | jsonParseError : RfError
  | invalidRFQ : RfError
  | unknownQueryType : RfError
  | authenticationError (msg : Option JVal) (r : ServerResponse) : RfError
  | httpError (msg : JVal) (r : ServerResponse) : RfError
  | requestsHTTPError (r : ServerResponse) : RfError
  | readTimeoutErr : RfError
  | stopIterationErr : RfError
  | pyError (e : PyErr) : RfError

/-- Embeds `"output" in query and query['output'].get("format", "json") != "json"`
(negated this is `expect_json`).  A non-dict `output` raises AttributeError
at the `.get` call. -/
def outputFormatNotJson (q : Query) : Except PyErr Bool :=
  match lookupKV q "output" with
  | none => .ok false
  | some (.obj out) =>
    let fmt := (lookupKV out "format").getD (.str "json")
    .ok (!(JVal.beq fmt (.str "json")))
  | some _ => .error .attrError

/-- Response classification shared by `ApiClient.query` (lines 136-157) and
`BaseApiClient._make_response` + `_parse_json_response` +
`RawApiClient._validate_json_response`: non-JSON formats become CSV or plain
wrappers by content type; JSON bodies are parsed (`parseFail` is what a parse
failure raises: `JsonParseError` in the new client; in the old client the
`except ValueError` handler reads the unbound name `resp` and so actually
raises `NameError`), then checked for an in-body `status == 'FAILURE'`. -/
def makeResponse (parseFail : RfError) (q : Query) (r : ServerResponse) :
    Except RfError QueryResponse :=
  match outputFormatNotJson q with
  | .error pe => .error (.pyError pe)
  | .ok notJson =>
    if notJson then
      if substrB ((r.contentType).getD "") "csv" then .ok (.csvQR r.textBody r)
      else .ok (.baseQR r.textBody r)
    else
      match r.jsonBody with
      | none => .error parseFail
      | some j =>
        match j with
        | .obj kvs =>
          if JVal.beq ((lookupKV kvs "status").getD (.str "")) (.str "FAILURE") then
            .error .remoteServerFailure
          else .ok (.jsonQR j r)
        | _ => .error (.pyError .attrError)

/-! ### The query clients -/

/-- One scripted transport outcome for one HTTP request attempt. -/
inductive TransportEvent where
  | resp (r : ServerResponse) : TransportEvent
  | readTimeout : TransportEvent

/-- Embeds the `is_scan` computation of `RawApiClient.query` (lines 108-110): the query has a known
kind and its kind body's `searchtype` equals `"scan"`.  A kind body that is
not a dict makes the Python `.get` raise AttributeError. -/
def isScanE (q : Query) : Except PyErr Bool :=
  match getQueryType q with
  | none => .ok false
  | some qt =>
    match lookupKV q qt with
    | some (.obj body) =>
      .ok (match lookupKV body "searchtype" with
        | some v => JVal.beq v (.str "scan")
        | none => false)
    | some _ => .error .attrError
    | none => .ok false

/-- Embeds `"page_start" in query[query_type]` (only evaluated when `is_scan`, whose
truth guarantees the kind body is a dict). -/
def hasPageStart (q : Query) : Bool :=
  match getQueryType q with
  | none => false
  | some qt =>
    match lookupKV q qt with
    | some (.obj body) => (lookupKV body "page_start").isSome
    | _ => false

/-- Embeds `BaseApiClient._raise_http_error` (`src/rfapi-red/apiclient.py` lines
116-132): with a JSON content type and a parsable JSON object body, a 401
becomes `AuthenticationError` and a body with a non-null `error` field becomes
`HttpError`; a body that is JSON but not an object raises AttributeError at
`resp.get`; in every other case the original `requests.HTTPError` is
re-raised. -/
def raiseHttpError (r : ServerResponse) : RfError :=
  match r.contentType with
  | some ct =>
    if substrB ct "application/json" then
      match r.jsonBody with
      | some (.obj kvs) =>
        let errMsg : Option JVal :=
          match lookupKV kvs "error" with
          | some .null => none
          | some v => some v
          | none => none
        if r.status == 401 then .authenticationError errMsg r
        else
          match errMsg with
          | some v => .httpError v r
          | none => .requestsHTTPError r
      | some _ => .pyError .attrError
      | none => .requestsHTTPError r
    else .requestsHTTPError r
  | none => .requestsHTTPError r

/-- Outcome of one `query()` call against the scripted transport. -/
inductive QStep where
  | ok (qr : QueryResponse) : QStep
  | raised (e : RfError) : QStep
  | noEvents : QStep

/-- Embeds `DEFAULT_RETRIES` (`src/rfapi-red/apiclient.py` line 48). -/
def DEFAULT_RETRIES : Nat := 3

/-- The retry loop of `RawApiClient.query` (lines 111-161), after `is_scan`
has been computed: each attempt consumes one transport event; 502/503 and
read timeouts are retried while `tries_left > 0` (a scan query whose cursor
has advanced never retries a read timeout); other HTTP errors go through
`_raise_http_error`; successful responses are classified by
`_make_response`. -/
def rawQueryGo (q : Query) (noRetryScan : Bool) (triesLeft : Nat)
    (evs : List TransportEvent) : QStep × List TransportEvent :=
  match evs with
  | [] => (.noEvents, [])
  | .readTimeout :: rest =>
    if noRetryScan then (.raised .readTimeoutErr, rest)
    else if 0 < triesLeft then rawQueryGo q noRetryScan (triesLeft - 1) rest
    else (.raised .readTimeoutErr, rest)
  | .resp r :: rest =>
    if 400 ≤ r.status then
      if r.status == 502 || r.status == 503 then
        if 0 < triesLeft then rawQueryGo q noRetryScan (triesLeft - 1) rest
        else (.raised (raiseHttpError r), rest)
      else (.raised (raiseHttpError r), rest)
    else
      match makeResponse .jsonParseError q r with
      | .error e => (.raised e, rest)
      | .ok qr => (.ok qr, rest)

/-- Embeds `RawApiClient.query(query, params, tries_left)`: computes `is_scan` (which
can raise before any request) and runs the attempt loop. -/
def rawQuery (q : Query) (triesLeft : Nat) (evs : List TransportEvent) :
    QStep × List TransportEvent :=
  match isScanE q with
  | .error pe => (.raised (.pyError pe), evs)
  | .ok sc => rawQueryGo q (sc && hasPageStart q) triesLeft evs

/-- Embeds `ApiClient.query` (`src/rfapi/apiclient.py` lines 92-157): a single
attempt, no retries; any HTTP error status re-raises the `requests.HTTPError`;
a JSON parse failure hits the unbound-`resp` handler bug and raises NameError. -/
def apiQuery (q : Query) (ev : TransportEvent) : Except RfError QueryResponse :=
  match ev with
  | .readTimeout => .error .readTimeoutErr
  | .resp r =>
    if 400 ≤ r.status then .error (.requestsHTTPError r)
    else makeResponse (.pyError .nameError) q r

/-! ### The paged-query generators -/

/-- One value yielded by a `paged_query` generator.  The constructors record
which `yield` statement produced the value: a whole JSON page result
(`field is None`), a `dot_index` item, the CSV field-name header (absent when
the CSV text was empty), one CSV data row as a field-to-value mapping, or a
whole response object (the `raw=True` path and the no-paging fallback). -/
inductive YieldItem where
  | pageResult (v : JVal) : YieldItem
  | fieldItem (v : JVal) : YieldItem
  | headerRow (cols : Option (List String)) : YieldItem
  | csvRow (cells : List (String × String)) : YieldItem
  | rawResp (qr : QueryResponse) : YieldItem

/-- How a `paged_query` run ends: normal generator exhaustion, a raised
error, or the scripted transport running out of events (the real generator
would simply block on another HTTP call). -/
inductive RunOutcome where
  | finished : RunOutcome
  | raised (e : RfError) : RunOutcome
  | outOfEvents : RunOutcome

/-- Loop-level result: yielded values in order, the query dict at the moment
of each HTTP call, and how the run ended. -/
structure LoopOut where
  yields : List YieldItem
  sent : List Query
  outcome : RunOutcome

/-- Full run result; `warned` records the `SyntaxWarning` the new client
emits for a caller-embedded `limit`. -/
structure RunResult where
  yields : List YieldItem
  sent : List Query
  warned : Bool
  outcome : RunOutcome

/-- Embeds `limit is not None and n_results >= limit`. -/
def limitHit (limit : Option Int) (n : Int) : Bool :=
  match limit with
  | some l => decide (l ≤ n)
  | none => false

/-- State after the inner `for item in tmp` loop over one JSON page. -/
structure ItemsOut where
  seen : List JVal
  n : Int
  ys : List YieldItem
  ret : Bool

/-- The `for item in tmp:` loop shared by both clients (`src/rfapi/apiclient.py`
lines 198-207, `src/rfapi-red/rawapiclient.py` lines 231-240): skip items
already in `seen` when `unique`, otherwise count, yield, and return as soon as
`n_results >= limit`. -/
def jsonItemsLoop (uniq : Bool) (limit : Option Int) :
    List JVal → List JVal → Int → ItemsOut
  | [], seen, n => ⟨seen, n, [], false⟩
  | item :: items, seen, n =>
    if uniq && seen.any (fun s => JVal.beq s item) then
      jsonItemsLoop uniq limit items seen n
    else
      let seen' := if uniq then item :: seen else seen
      if limitHit limit (n + 1) then ⟨seen', n + 1, [.fieldItem item], true⟩
      else
        let rest := jsonItemsLoop uniq limit items seen' (n + 1)
        ⟨rest.seen, rest.n, .fieldItem item :: rest.ys, rest.ret⟩

/-- State after the `for row in csv_reader` loop over one CSV page. -/
structure RowsOut where
  n : Int
  ys : List YieldItem
  ret : Bool

/-- The `for row in csv_reader:` loop (`src/rfapi/apiclient.py` lines 213-218,
`src/rfapi-red/rawapiclient.py` lines 246-251): each remaining line becomes a
`dict(zip(fieldnames, row))`, is counted and yielded, and the generator
returns as soon as `n_results >= limit`. -/
def csvRowsLoop (limit : Option Int) (fns : List String) :
    List (List String) → Int → RowsOut
  | [], n => ⟨n, [], false⟩
  | row :: rows, n =>
    let y := YieldItem.csvRow (List.zip fns row)
    if limitHit limit (n + 1) then ⟨n + 1, [y], true⟩
    else
      let rest := csvRowsLoop limit fns rows (n + 1)
      ⟨rest.n, y :: rest.ys, rest.ret⟩

/-- Embeds `n_results += query_response.returned_count`: the property value must be
a number (adding `None` or a non-numeric value raises TypeError). -/
def addReturned (qr : QueryResponse) (n : Int) : Except PyErr Int :=
  (returnedCount (resultOf qr) (respOf qr)).bind (fun rc =>
    match rc with
    | some (.num k) => .ok (n + k)
    | _ => .error .typeError)

/-- Result of processing one page inside the `while True:` loop: the page's
yields plus either a raised error, a `return` from inside the page, or the
state with which the loop continues to the after-page checks. -/
inductive PageOut where
  | raisedP (ys : List YieldItem) (e : RfError) : PageOut
  | doneP (ys : List YieldItem) : PageOut
  | contP (ys : List YieldItem) (seen : List JVal) (n : Int) : PageOut

/-- One page of `ApiClient.paged_query` (`src/rfapi/apiclient.py` lines
193-222).  JSON without `field` yields the whole result (uncounted); JSON with
`field` runs `dot_index` and the item loop.  CSV yields `fieldnames` when
nothing was yielded yet, then executes `next(csv_reader)  # skip header` —
but `fieldnames` has already consumed the header line, so this `next` consumes
(and silently drops) the FIRST DATA ROW of the page, or raises StopIteration
(a RuntimeError inside a py3.7+ generator) when the page has no data row.
Any other content type yields the response object and returns. -/
def apiPage (limit : Option Int) (field : Option String) (uniq : Bool)
    (qr : QueryResponse) (seen : List JVal) (n : Int) : PageOut :=
  match qr with
  | .jsonQR res _ =>
    match field with
    | none => .contP [.pageResult res] seen n
    | some f =>
      match dotIndex f res with
      | .error pe => .raisedP [] (.pyError pe)
      | .ok items =>
        let io := jsonItemsLoop uniq limit items seen n
        if io.ret then .doneP io.ys else .contP io.ys io.seen io.n
  | .csvQR _ r =>
    let rows := r.csvRows
    let headYs := if n == 0 then [YieldItem.headerRow rows.head?] else []
    match rows with
    | [] => .raisedP headYs .stopIterationErr
    | [_] => .raisedP headYs .stopIterationErr
    | hdr :: _ :: data =>
      let ro := csvRowsLoop limit hdr data n
      if ro.ret then .doneP (headYs ++ ro.ys) else .contP (headYs ++ ro.ys) seen ro.n
  | .baseQR _ _ => .doneP [.rawResp qr]

/-- One page of `RawApiClient.paged_query` (`src/rfapi-red/rawapiclient.py`
lines 221-255).  `raw=True` counts `returned_count` and yields the response;
JSON without `field` does the same but yields the result; JSON with `field`
is as in the old client.  CSV yields `fieldnames` when nothing was yielded
yet and iterates the remaining lines (no extra `next`).  Any other content
type counts `returned_count`, yields the response object and KEEPS paging. -/
def redPage (limit : Option Int) (field : Option String) (uniq raw : Bool)
    (qr : QueryResponse) (seen : List JVal) (n : Int) : PageOut :=
  if raw then
    match addReturned qr n with
    | .error pe => .raisedP [] (.pyError pe)
    | .ok n' => .contP [.rawResp qr] seen n'
  else
    match qr with
    | .jsonQR res _ =>
      match field with
      | none =>
        match addReturned qr n with
        | .error pe => .raisedP [] (.pyError pe)
        | .ok n' => .contP [.pageResult res] seen n'
      | some f =>
        match dotIndex f res with
        | .error pe => .raisedP [] (.pyError pe)
        | .ok items =>
          let io := jsonItemsLoop uniq limit items seen n
          if io.ret then .doneP io.ys else .contP io.ys io.seen io.n
    | .csvQR _ r =>
      let rows := r.csvRows
      let headYs := if n == 0 then [YieldItem.headerRow rows.head?] else []
      let ro := csvRowsLoop limit ((rows.head?).getD []) rows.tail n
      if ro.ret then .doneP (headYs ++ ro.ys) else .contP (headYs ++ ro.ys) seen ro.n
    | .baseQR _ _ =>
      match addReturned qr n with
      | .error pe => .raisedP [] (.pyError pe)
      | .ok n' => .contP [.rawResp qr] seen n'

/-- After-page decision: stop the generator with an outcome, or continue with
an updated query. -/
inductive AfterCheck where
  | stopA (oc : RunOutcome) : AfterCheck
  | contA (q' : Query) : AfterCheck

/-- Embeds `query[query_type]["page_start"] = query_response.next_page_start`
(`None` when the header is absent). -/
def pageStartVal (r : ServerResponse) : JVal :=
  match nextPageStart r with
  | some s => .str s
  | none => .null

/-- Write one key into the kind body of a query (the body is a dict in every
run that reaches this statement, since the limit was stored into it first). -/
def setInKind (q : Query) (qt k : String) (v : JVal) : Query :=
  match lookupKV q qt with
  | some (.obj body) => dictSet q qt (.obj (dictSet body k v))
  | _ => q

/-- End-of-page logic of the old client (lines 224-227): stop unless
`has_more_results`, else advance the cursor. -/
def apiAfterCheck (qt : String) (qr : QueryResponse) (q : Query) : AfterCheck :=
  match hasMoreResults (resultOf qr) (respOf qr) with
  | .error pe => .stopA (.raised (.pyError pe))
  | .ok false => .stopA .finished
  | .ok true => .contA (setInKind q qt "page_start" (pageStartVal (respOf qr)))

/-- Embeds `query_response.total_count <= n_results` (line 259); in Python 3 a
`None` total raises TypeError. -/
def totalLeCheck (qr : QueryResponse) (n : Int) : Except PyErr Bool :=
  (totalCount (resultOf qr) (respOf qr)).bind (fun tc =>
    match tc with
    | some t => .ok (decide (t ≤ n))
    | none => .error .typeError)

/-- End-of-page logic of the new client (lines 257-268), in source order:
return when `total_count <= n_results`; return when not `has_more_results`;
return when the limit is reached; else advance the cursor. -/
def redAfterCheck (qt : String) (limit : Option Int) (qr : QueryResponse)
    (n : Int) (q : Query) : AfterCheck :=
  match totalLeCheck qr n with
  | .error pe => .stopA (.raised (.pyError pe))
  | .ok true => .stopA .finished
  | .ok false =>
    match hasMoreResults (resultOf qr) (respOf qr) with
    | .error pe => .stopA (.raised (.pyError pe))
    | .ok false => .stopA .finished
    | .ok true =>
      if limitHit limit n then .stopA .finished
      else .contA (setInKind q qt "page_start" (pageStartVal (respOf qr)))

/-- The `while True:` loop of `ApiClient.paged_query`, driven by the scripted
transport (one event per `self.query` call; no retries in the old client). -/
def apiPagedLoop (qt : String) (limit : Option Int) (field : Option String)
    (uniq : Bool) : Query → List JVal → Int → List TransportEvent → LoopOut
  | _, _, _, [] => ⟨[], [], .outOfEvents⟩
  | q, seen, n, ev :: rest =>
    match apiQuery q ev with
    | .error e => ⟨[], [q], .raised e⟩
    | .ok qr =>
      match apiPage limit field uniq qr seen n with
      | .raisedP ys e => ⟨ys, [q], .raised e⟩
      | .doneP ys => ⟨ys, [q], .finished⟩
      | .contP ys seen' n' =>
        match apiAfterCheck qt qr q with
        | .stopA oc => ⟨ys, [q], oc⟩
        | .contA q' =>
          let t := apiPagedLoop qt limit field uniq q' seen' n' rest
          ⟨ys ++ t.yields, q :: t.sent, t.outcome⟩

/-- The `while True:` loop of `RawApiClient.paged_query`.  Each iteration runs
the retrying `query()` against the remaining events; `fuel` (instantiated with
the event-list length, an upper bound on the number of iterations since every
iteration consumes at least one event) makes the recursion structural. -/
def redPagedLoop (qt : String) (limit : Option Int) (field : Option String)
    (uniq raw : Bool) :
    Nat → Query → List JVal → Int → List TransportEvent → LoopOut
  | 0, _, _, _, _ => ⟨[], [], .outOfEvents⟩
  | _ + 1, _, _, _, [] => ⟨[], [], .outOfEvents⟩
  | fuel + 1, q, seen, n, ev :: rest =>
    let pr := rawQuery q DEFAULT_RETRIES (ev :: rest)
    match pr.1 with
    | .noEvents => ⟨[], [q], .outOfEvents⟩
    | .raised e => ⟨[], [q], .raised e⟩
    | .ok qr =>
      match redPage limit field uniq raw qr seen n with
      | .raisedP ys e => ⟨ys, [q], .raised e⟩
      | .doneP ys => ⟨ys, [q], .finished⟩
      | .contP ys seen' n' =>
        match redAfterCheck qt limit qr n' q with
        | .stopA oc => ⟨ys, [q], oc⟩
        | .contA q' =>
          let t := redPagedLoop qt limit field uniq raw fuel q' seen' n' pr.2
          ⟨ys ++ t.yields, q :: t.sent, t.outcome⟩

/-- Embeds `ApiClient.paged_query` (`src/rfapi/apiclient.py` lines 160-227): reject
unknown kinds with `UnknownQueryTypeError` before any request (there is NO
aggregate-query check in this client), store `min(batch_size, limit)` (or
`batch_size` when `limit is None`) under the kind body's `limit` key, and run
the page loop. -/
def apiPagedRun (q0 : Query) (limit : Option Int) (batch : Int)
    (field : Option String) (uniq : Bool) (evs : List TransportEvent) :
    RunResult :=
  match getQueryType q0 with
  | none => ⟨[], [], false, .raised .unknownQueryType⟩
  | some qt =>
    match lookupKV q0 qt with
    | some (.obj body) =>
      let lim : Int := match limit with | none => batch | some l => min batch l
      let q1 := dictSet q0 qt (.obj (dictSet body "limit" (.num lim)))
      let lo := apiPagedLoop qt limit field uniq q1 [] 0 evs
      ⟨lo.yields, lo.sent, false, lo.outcome⟩
    | _ => ⟨[], [], false, .raised (.pyError .typeError)⟩

/-- The aggregate-query test of `RawApiClient.paged_query` (lines 199-203):
`output` is a dict and contains `count`. -/
def aggregateCheck (q : Query) : Bool :=
  match lookupKV q "output" with
  | some (.obj out) => (lookupKV out "count").isSome
  | _ => false

/-- Embeds `RawApiClient.paged_query` (`src/rfapi-red/rawapiclient.py` lines
174-268): reject unknown kinds and aggregate queries (`output` a dict
containing `count`) with `InvalidRFQError` before any request; warn when the
caller embedded a `limit` in the kind body; store `min(batch_size, limit)`
and run the page loop. -/
def redPagedRun (q0 : Query) (limit : Option Int) (batch : Int)
    (field : Option String) (uniq raw : Bool) (evs : List TransportEvent) :
    RunResult :=
  match getQueryType q0 with
  | none => ⟨[], [], false, .raised .invalidRFQ⟩
  | some qt =>
    if aggregateCheck q0 then ⟨[], [], false, .raised .invalidRFQ⟩
    else
      match lookupKV q0 qt with
      | some (.obj body) =>
        let warned := (lookupKV body "limit").isSome
        let lim : Int := match limit with | none => batch | some l => min batch l
        let q1 := dictSet q0 qt (.obj (dictSet body "limit" (.num lim)))
        let lo := redPagedLoop qt limit field uniq raw evs.length q1 [] 0 evs
        ⟨lo.yields, lo.sent, warned, lo.outcome⟩
      | _ => ⟨[], [], false, .raised (.pyError .typeError)⟩

/-! ### Auth providers (`src/rfapi/auth.py`, `src/rfapi-red/auth.py`) -/

/-- The process environment, as a name-to-value list. -/
abbrev EnvMap := List (String × String)

/-- Environment lookup. -/
def envGet (env : EnvMap) (k : String) : Option String :=
  match env with
  | [] => none
  | (j, v) :: rest => if j == k then some v else envGet rest k

/-- State of an `RFTokenAuth` instance. -/
structure TokenAuth where
  token : Option String

/-- Embeds `RFTokenAuth._find_token` of the OLD client (`src/rfapi/auth.py` lines
39-45): `RF_TOKEN`, then legacy `RECFUT_TOKEN`, else `None` (no raise). -/
def findTokenRfapi (env : EnvMap) : Option String :=
  match envGet env "RF_TOKEN" with
  | some t => some t
  | none => envGet env "RECFUT_TOKEN"

/-- Embeds `RFTokenAuth.__init__` of the OLD client (lines 29-30): construction is
total — with `'auto'` the environment is consulted and an absent token is
simply stored as `None`. -/
def rfapiTokenAuthInit (token : String) (env : EnvMap) : TokenAuth :=
  ⟨if token == "auto" then findTokenRfapi env else some token⟩

/-- Embeds `RFTokenAuth.__call__` of the OLD client (lines 32-37): a falsy token
(`None` or the empty string) raises `MissingAuthError` at first use; otherwise
the `Authorization` header value is produced. -/
def rfapiTokenAuthCall (a : TokenAuth) : Except RfError String :=
  match a.token with
  | none => .error .missingAuth
  | some t => if t == "" then .error .missingAuth else .ok ("RF-TOKEN token=" ++ t)

/-- Embeds `RFTokenAuth._find_token` of the NEW client (`src/rfapi-red/auth.py` lines
46-54): `RF_TOKEN`, then `RECFUT_TOKEN`, else RAISE `MissingAuthError`. -/
def findTokenRed (env : EnvMap) : Except RfError String :=
  match envGet env "RF_TOKEN" with
  | some t => .ok t
  | none =>
    match envGet env "RECFUT_TOKEN" with
    | some t => .ok t
    | none => .error .missingAuth

/-- Embeds `RFTokenAuth.__init__` of the NEW client (lines 30-33): with `'auto'` the
token is resolved AT CONSTRUCTION, so a missing environment token raises
`MissingAuthError` already while the client is being built. -/
def redTokenAuthInit (token : String) (env : EnvMap) : Except RfError TokenAuth :=
  if token == "auto" then (findTokenRed env).map (fun t => ⟨some t⟩)
  else .ok ⟨some token⟩

/-- Embeds `RFTokenAuth.__call__` of the NEW client (lines 35-44), `api_version = 1`:
falsy token raises at first use, else the header value is produced. -/
def redTokenAuthCall (a : TokenAuth) : Except RfError String :=
  match a.token with
  | none => .error .missingAuth
  | some t => if t == "" then .error .missingAuth else .ok ("RF-TOKEN token=" ++ t)

/-! ### Instrumentation and concrete inputs used by the verification -/

/-- Yields that `paged_query` counts against `limit` via `n_results += 1`:
`dot_index` items and CSV data rows.  Whole-page results, raw responses and
the CSV header are yielded without an individual `n_results` increment. -/
def isCountedYield : YieldItem → Bool
  | .fieldItem _ => true
  | .csvRow _ => true
  | _ => false

/-- Number of individually counted yields in a run. -/
def countedYields (ys : List YieldItem) : Nat :=
  ys.countP (fun y => isCountedYield y)

/-- Number of CSV data-row yields. -/
def countCsvRows (ys : List YieldItem) : Nat :=
  ys.countP (fun y => match y with | .csvRow _ => true | _ => false)

/-- Number of CSV header yields. -/
def countHeaderRows (ys : List YieldItem) : Nat :=
  ys.countP (fun y => match y with | .headerRow _ => true | _ => false)

/-- The `limit` stored in the kind body of a query dict. -/
def kindLimit (q : Query) (qt : String) : Option JVal :=
  match lookupKV q qt with
  | some (.obj b) => lookupKV b "limit"
  | _ => none

/-- Every count the server reports in this response, along every path
`returned_count` can resolve one, is nonnegative.  (A hostile server could
report a negative `X-RF-RETURNED-COUNT`; `RawApiClient.paged_query` adds it
to `n_results` unchecked.) -/
def countsNonnegB (r : ServerResponse) : Bool :=
  (match r.returnedCountH with | some k => decide (0 ≤ k) | none => true) &&
  (match r.jsonBody with
   | some (.obj kvs) =>
     (match lookupKV kvs "counts" with
      | some (.obj c) =>
        match lookupKV c "returned" with
        | some (.num k) => decide (0 ≤ k)
        | _ => true
      | _ => true) &&
     (match lookupKV kvs "result" with
      | some (.obj c) =>
        match lookupKV c "count" with
        | some (.num k) => decide (0 ≤ k)
        | _ => true
      | _ => true)
   | _ => true)

/-- Lift of `countsNonnegB` to transport events. -/
def evCountsOK : TransportEvent → Bool
  | .resp r => countsNonnegB r
  | .readTimeout => true

/-- A wrapper is consistent with its raw response: a JSON wrapper's result is
exactly the parsed body.  Every wrapper the clients build satisfies this. -/
def respConsistent : QueryResponse → Prop
  | .jsonQR res r => r.jsonBody = some res
  | .csvQR _ _ => True
  | .baseQR _ _ => True

/-- The mapping `{'a': {'b': {'c': 1}}}` of the dot-path claim. -/
def C6data : JVal := .obj [("a", .obj [("b", .obj [("c", .num 1)])])]

/-- A JSON page whose headers say more results follow (cursor `c2`). -/
def c1Page1 : ServerResponse :=
  { status := 200, contentType := some "application/json",
    jsonBody := some (.obj [("k", .num 1)]), textBody := "", csvRows := [],
    returnedCountH := some 1, totalCountH := some 99, nextPageStartH := some "c2" }

/-- A final JSON page (no cursor). -/
def c1Page2 : ServerResponse :=
  { status := 200, contentType := some "application/json",
    jsonBody := some (.obj [("k", .num 2)]), textBody := "", csvRows := [],
    returnedCountH := some 1, totalCountH := some 99, nextPageStartH := none }

/-- A CSV page: a header line and `nrows` data rows, 26 rows total reported. -/
def csvResp (nrows : Nat) (next : Option String) : ServerResponse :=
  { status := 200, contentType := some "text/csv", jsonBody := none,
    textBody := "h1,h2", csvRows := ["h1", "h2"] :: List.replicate nrows ["d", "x"],
    returnedCountH := some nrows, totalCountH := some 26, nextPageStartH := next }

/-- The CSV scenario query: an entity query with a CSV output format. -/
def c4Query : Query :=
  [("entity", .obj []), ("output", .obj [("format", .str "csv/splunk")])]

/-- A server supplying 26 data rows in CSV pages of 10, 10 and 6. -/
def c4Events : List TransportEvent :=
  [.resp (csvResp 10 (some "c2")), .resp (csvResp 10 (some "c3")),
   .resp (csvResp 6 none)]

/-- A JSON page carrying `cnt` items under `instances`. -/
def instPage (cnt : Nat) (next : Option String) : ServerResponse :=
  { status := 200, contentType := some "application/json",
    jsonBody := some (.obj [("instances", .arr (List.replicate cnt (.num 1)))]),
    textBody := "", csvRows := [],
    returnedCountH := some cnt, totalCountH := some 100, nextPageStartH := next }

/-- Three `instances` pages of 10, 10 and 5 items. -/
def c2Events : List TransportEvent :=
  [.resp (instPage 10 (some "c2")), .resp (instPage 10 (some "c3")),
   .resp (instPage 5 none)]

/-- A non-JSON response whose text contains the substring `counts` and which
carries a paging cursor but no count headers. -/
def c5Resp : ServerResponse :=
  { status := 200, contentType := some "text/plain", jsonBody := none,
    textBody := "counts", csvRows := [], returnedCountH := none,
    totalCountH := none, nextPageStartH := some "x" }

/-- An aggregate query (`output.count` present). -/
def c3AggQuery : Query :=
  [("entity", .obj []), ("output", .obj [("count", .bool true)])]

/-- A scan search whose page cursor has advanced. -/
def c7ScanQuery : Query :=
  [("reference", .obj [("searchtype", .str "scan"), ("page_start", .str "z")])]

/-- An ordinary (non-scan) query. -/
def c7PlainQuery : Query := [("entity", .obj [])]

/-- A 401 response with a non-JSON content type. -/
def c8HtmlResp : ServerResponse :=
  { status := 401, contentType := some "text/html", jsonBody := none,
    textBody := "denied", csvRows := [], returnedCountH := none,
    totalCountH := none, nextPageStartH := none }

/-- A 401 response with a JSON error body. -/
def c8JsonResp : ServerResponse :=
  { status := 401, contentType := some "application/json",
    jsonBody := some (.obj [("error", .str "bad token")]), textBody := "",
    csvRows := [], returnedCountH := none, totalCountH := none,
    nextPageStartH := none }

/-- A 401 response with a JSON content type whose body is a JSON array, not
an object. -/
def c8ArrResp : ServerResponse :=
  { status := 401, contentType := some "application/json",
    jsonBody := some (.arr [.num 1, .num 2]), textBody := "[1, 2]",
    csvRows := [], returnedCountH := none, totalCountH := none,
    nextPageStartH := none }

/-- A JSON page whose result lacks the `instances` field. -/
def c10Page : ServerResponse :=
  { status := 200, contentType := some "application/json",
    jsonBody := some (.obj [("other", .num 1)]), textBody := "", csvRows := [],
    returnedCountH := some 1, totalCountH := some 9, nextPageStartH := some "c" }

/-! ### Helper lemmas -/

/-- Composition: `dot_index`'s key loop composes over key-list concatenation. -/
theorem navKeys_append (ks1 ks2 : List String) (data : JVal) :
    navKeys (ks1 ++ ks2) data = (navKeys ks1 data).bind (navKeys ks2) := by
  induction ks1 generalizing data with
  | nil => simp [navKeys, Except.bind]
  | cons k ks ih =>
    simp only [List.cons_append, navKeys]
    cases navKey data k with
    | error e => simp [Except.bind]
    | ok d => simp [Except.bind, ih]

/-- Setting a key makes it present with the new value. -/
theorem lookup_dictSet_self (d : List (String × JVal)) (k : String) (v : JVal) :
    lookupKV (dictSet d k v) k = some v := by
  induction d with
  | nil => simp [dictSet, lookupKV]
  | cons kv rest ih =>
    obtain ⟨j, w⟩ := kv
    by_cases h : j = k
    · subst h; simp [dictSet, lookupKV]
    · simp [dictSet, lookupKV, h, ih]

/-- Setting a key leaves every other key unchanged. -/
theorem lookup_dictSet_other (d : List (String × JVal)) (k j : String) (v : JVal)
    (h : j ≠ k) : lookupKV (dictSet d k v) j = lookupKV d j := by
  induction d with
  | nil => simp [dictSet, lookupKV, Ne.symm h]
  | cons kv rest ih =>
    obtain ⟨i, w⟩ := kv
    by_cases hik : i = k
    · subst hik
      have hij : ¬ i = j := fun hh => h (hh ▸ rfl)
      simp [dictSet, lookupKV, hij]
    · simp [dictSet, lookupKV, hik, ih]

/-- A resolved query type is one of the five map keys. -/
theorem queryType_cases (q : Query) (qt : String) (h : getQueryType q = some qt) :
    qt = "instance" ∨ qt = "reference" ∨ qt = "entity" ∨ qt = "source" ∨
      qt = "cluster" := by
  have hm := List.mem_of_find?_eq_some h
  simpa [QUERY_TYPE_KEYS] using hm

/-! ### Claim C6 — dot-path two-step composition -/

/-- C6 counterexample.  Resolving `"a.b"` against `{a:{b:{c:1}}}` does yield
the single item `('c', 1)`, and resolving `"a"` yields the single item
`('b', {c:1})` — but resolving `"b"` against that result (a list of key-value
tuples, `dict.items()` materialised) raises TypeError, because `dot_index`
then evaluates `x['b']` with `x` a tuple.  The two-step composition of the
claim therefore does not produce the same single-item result; it raises. -/
theorem C6_counterexample :
    dotIndex "a.b" C6data = .ok [.pairv "c" (.num 1)] ∧
    dotIndex "a" C6data = .ok [.pairv "b" (.obj [("c", .num 1)])] ∧
    dotIndex "b" (.arr [.pairv "b" (.obj [("c", .num 1)])]) =
      .error .typeError := by
  exact ⟨rfl, rfl, rfl⟩

/-- C6 amended: the traversal underlying `dot_index` composes — splitting the
key path and navigating in two steps over the *intermediate mapping* gives
the same result (first conjunct, and concretely: `"a.b"` on `{a:{b:{c:1}}}`
equals `"b"` on `{b:{c:1}}`, both the single item `('c', 1)`).  Composition
fails only at `dot_index`'s final `items()` conversion, which turns a dict
into key-value tuples that a second `dot_index` call cannot index. -/
theorem C6_amended :
    (∀ ks1 ks2 data, navKeys (ks1 ++ ks2) data =
      (navKeys ks1 data).bind (navKeys ks2)) ∧
    dotIndex "a.b" C6data = .ok [.pairv "c" (.num 1)] ∧
    pyIndex C6data "a" = .ok (.obj [("b", .obj [("c", .num 1)])]) ∧
    dotIndex "b" (.obj [("b", .obj [("c", .num 1)])]) =
      .ok [.pairv "c" (.num 1)] := by
  exact ⟨fun ks1 ks2 data => navKeys_append ks1 ks2 data, rfl, rfl, rfl⟩

/-! ### Claim C5 — `has_more_results` -/

/-- C5 counterexample.  A response whose decoded result is the text
`"counts"` (any CSV/XML body containing that substring behaves alike), with a
paging cursor present and no count headers: `has_more_results` is neither
false nor true — evaluating `returned_count` reaches
`self.result['counts']`, string indexing with a string key, and raises
TypeError.  The claim asserts a boolean in every case. -/
theorem C5_counterexample :
    nextPageStart c5Resp = some "x" ∧
    hasMoreResults (.str "counts") c5Resp = .error .typeError := by
  exact ⟨rfl, rfl⟩

/-- C5 amended: `has_more_results` is `False` exactly when the cursor is
absent or both counts evaluate successfully to present values with
`returned == total` (a numeric comparison; `returned` must not be `None`).
In the remaining cases it is `True` where the count properties evaluate, but
it can instead raise (e.g. TypeError on a text result containing `counts`),
so "true otherwise" does not hold response-for-response. -/
theorem C5_amended (res : JVal) (r : ServerResponse) :
    hasMoreResults res r = .ok false ↔
      (nextPageStart r = none ∨
        ∃ rv t, returnedCount res r = .ok (some rv) ∧
          totalCount res r = .ok (some t) ∧ numEqInt rv t = true) := by
  unfold hasMoreResults
  cases hn : nextPageStart r with
  | none => simp
  | some s =>
    simp only [hn]
    cases hrc : returnedCount res r with
    | error e => simp [Except.bind]
    | ok rc =>
      cases rc with
      | none => simp [Except.bind]
      | some rv =>
        cases htc : totalCount res r with
        | error e => simp [Except.bind]
        | ok tc =>
          cases tc with
          | none => simp [Except.bind]
          | some t =>
            by_cases hb : numEqInt rv t = true
            · simp [Except.bind, hb]
            · simp [Except.bind, hb]

/-! ### Claim C7 — read-timeout retry policy -/

/-- Helper: a read timeout with budget left burns one retry. -/
theorem rawQueryGo_timeout_step (q : Query) (t : Nat) (rest : List TransportEvent) :
    rawQueryGo q false (t + 1) (.readTimeout :: rest) = rawQueryGo q false t rest := by
  simp [rawQueryGo]

/-- Helper: with retries enabled, `t+1` consecutive read timeouts exhaust a
budget of `t` and the timeout is finally re-raised. -/
theorem rawQueryGo_timeouts (q : Query) :
    ∀ (t : Nat) (rest : List TransportEvent),
      rawQueryGo q false t (List.replicate (t + 1) .readTimeout ++ rest) =
        (.raised .readTimeoutErr, rest) := by
  intro t
  induction t with
  | zero => intro rest; simp [List.replicate, rawQueryGo]
  | succ t ih =>
    intro rest
    rw [List.replicate_succ, List.cons_append, rawQueryGo_timeout_step]
    exact ih rest

/-- C7: on a read timeout, `RawApiClient.query` re-raises immediately —
consuming exactly one transport attempt, for every remaining retry budget —
when the query is a scan search whose `page_start` cursor is present; for
every other query a read timeout is retried while `tries_left` is positive,
so a budget of `t` is exhausted by `t+1` consecutive timeouts and only then
is the timeout raised. -/
theorem C7_theorem :
    (∀ (q : Query) (t : Nat) (rest : List TransportEvent),
      isScanE q = .ok true → hasPageStart q = true →
        rawQuery q t (.readTimeout :: rest) = (.raised .readTimeoutErr, rest)) ∧
    (∀ (q : Query) (t : Nat) (rest : List TransportEvent) (sc : Bool),
      isScanE q = .ok sc → (sc && hasPageStart q) = false →
        rawQuery q t (List.replicate (t + 1) .readTimeout ++ rest) =
          (.raised .readTimeoutErr, rest)) := by
  constructor
  · intro q t rest hsc hps
    simp only [rawQuery, hsc, hps]
    simp [rawQueryGo]
  · intro q t rest sc hsc hflag
    simp only [rawQuery, hsc, hflag]
    exact rawQueryGo_timeouts q t rest

/-- C7 witness: a scan query with an advanced cursor re-raises at once; a
plain entity query with budget 2 exhausts it after 3 timeouts. -/
theorem C7_witness :
    rawQuery c7ScanQuery 3 [.readTimeout] = (.raised .readTimeoutErr, []) ∧
    rawQuery c7PlainQuery 2 (List.replicate 3 .readTimeout ++ []) =
      (.raised .readTimeoutErr, []) := by
  exact ⟨C7_theorem.1 c7ScanQuery 3 [] rfl rfl,
    C7_theorem.2 c7PlainQuery 2 [] false rfl rfl⟩

/-! ### Claim C8 — HTTP 401 handling -/

/-- C8 counterexample.  A 401 whose content type is `text/html`: `query`
raises the original `requests.HTTPError`, not `AuthenticationError` — the
`_raise_http_error` JSON branch is skipped entirely.  (It is still not
retried: the single scripted event is consumed and none remain.) -/
theorem C8_counterexample :
    rawQuery [("entity", .obj [])] DEFAULT_RETRIES [.resp c8HtmlResp] =
      (.raised (.requestsHTTPError c8HtmlResp), []) := by
  exact rfl

/-- C8 amended: a 401 is never retried — whatever the remaining budget,
`query` fails after that single attempt with whatever `_raise_http_error`
raises, and that error splits into exactly three cases.  With a JSON content
type and a JSON-object body it is `AuthenticationError`, carrying the body's
`error` message and the response.  With a JSON content type and a body that
parses as JSON but not as an object, `resp.get('error')` raises
`AttributeError` — only `ValueError` is caught — so neither
`AuthenticationError` nor the `requests.HTTPError` surfaces and no response
is attached.  In every remaining case (no content-type header, a non-JSON
content type, or an unparsable body) the original `requests.HTTPError`,
which carries the response, is re-raised. -/
theorem C8_amended (q : Query) (t : Nat) (sc : Bool) (r : ServerResponse)
    (rest : List TransportEvent) (hsc : isScanE q = .ok sc)
    (h401 : r.status = 401) :
    rawQuery q t (.resp r :: rest) = (.raised (raiseHttpError r), rest) ∧
    (∀ ct, r.contentType = some ct → substrB ct "application/json" = true →
      ∀ kvs, r.jsonBody = some (.obj kvs) →
        raiseHttpError r = .authenticationError
          (match lookupKV kvs "error" with
           | some .null => none
           | some v => some v
           | none => none) r) ∧
    (∀ ct, r.contentType = some ct → substrB ct "application/json" = true →
      ∀ j, r.jsonBody = some j → (∀ kvs, j ≠ .obj kvs) →
        raiseHttpError r = .pyError .attrError) ∧
    (r.contentType = none → raiseHttpError r = .requestsHTTPError r) ∧
    (∀ ct, r.contentType = some ct → substrB ct "application/json" = false →
      raiseHttpError r = .requestsHTTPError r) ∧
    (∀ ct, r.contentType = some ct → substrB ct "application/json" = true →
      r.jsonBody = none → raiseHttpError r = .requestsHTTPError r) := by
  refine ⟨?_, ?_, ?_, ?_, ?_, ?_⟩
  · simp only [rawQuery, hsc]
    simp [rawQueryGo, h401]
  · intro ct hct hsub kvs hbody
    simp [raiseHttpError, hct, hsub, hbody, h401]
  · intro ct hct hsub j hbody hnotobj
    cases j with
    | obj kvs => exact absurd rfl (hnotobj kvs)
    | null => simp [raiseHttpError, hct, hsub, hbody]
    | bool b => simp [raiseHttpError, hct, hsub, hbody]
    | num k => simp [raiseHttpError, hct, hsub, hbody]
    | str s => simp [raiseHttpError, hct, hsub, hbody]
    | arr xs => simp [raiseHttpError, hct, hsub, hbody]
    | pairv k v => simp [raiseHttpError, hct, hsub, hbody]
  · intro hct
    simp [raiseHttpError, hct]
  · intro ct hct hsub
    simp [raiseHttpError, hct, hsub]
  · intro ct hct hsub hbody
    simp [raiseHttpError, hct, hsub, hbody]

/-- C8 witness: a JSON-typed 401 with body `{"error": "bad token"}` raises
`AuthenticationError` carrying that message and the response, without retry;
a JSON-typed 401 whose body is the array `[1, 2]` raises `AttributeError`;
a `text/html` 401 re-raises the `requests.HTTPError`. -/
theorem C8_witness :
    rawQuery [("entity", .obj [])] 3 (.resp c8JsonResp :: []) =
      (.raised (raiseHttpError c8JsonResp), []) ∧
    raiseHttpError c8JsonResp =
      .authenticationError (some (.str "bad token")) c8JsonResp ∧
    raiseHttpError c8ArrResp = .pyError .attrError ∧
    raiseHttpError c8HtmlResp = .requestsHTTPError c8HtmlResp := by
  refine ⟨(C8_amended [("entity", .obj [])] 3 false c8JsonResp [] rfl rfl).1,
    ?_, ?_, ?_⟩
  · exact (C8_amended [("entity", .obj [])] 3 false c8JsonResp [] rfl rfl).2.1
      "application/json" rfl rfl [("error", .str "bad token")] rfl
  · exact (C8_amended [("entity", .obj [])] 3 false c8ArrResp [] rfl rfl).2.2.1
      "application/json" rfl rfl (.arr [.num 1, .num 2]) rfl
      (fun kvs h => JVal.noConfusion h)
  · exact (C8_amended [("entity", .obj [])] 3 false c8HtmlResp []
      rfl rfl).2.2.2.2.1 "text/html" rfl rfl

/-! ### Claim C9 — deferred credential resolution -/

/-- C9 counterexample.  In the new client (`src/rfapi-red/auth.py`),
constructing `RFTokenAuth('auto')` with no resolvable environment token
raises `MissingAuthError` at construction time — `_find_token` raises instead
of returning `None` —, so a client cannot always be constructed before a
token is available. -/
theorem C9_counterexample :
    redTokenAuthInit "auto" [] = .error .missingAuth := by
  exact rfl

/-- C9 amended: the old client's provider (`src/rfapi/auth.py`) behaves as
claimed — construction is total (auto mode merely stores the looked-up token
or `None`) and `MissingAuthError` surfaces only at first use; the new
client's provider instead resolves an `'auto'` token at construction and
raises `MissingAuthError` there when neither `RF_TOKEN` nor `RECFUT_TOKEN`
is set (construction with an explicit token still never fails). -/
theorem C9_amended :
    (∀ token env, rfapiTokenAuthInit token env =
      ⟨if token == "auto" then findTokenRfapi env else some token⟩) ∧
    (∀ env, findTokenRfapi env = none →
      rfapiTokenAuthCall (rfapiTokenAuthInit "auto" env) = .error .missingAuth) ∧
    (∀ env, envGet env "RF_TOKEN" = none → envGet env "RECFUT_TOKEN" = none →
      redTokenAuthInit "auto" env = .error .missingAuth) ∧
    (∀ token env, token ≠ "auto" → redTokenAuthInit token env = .ok ⟨some token⟩) := by
  refine ⟨fun token env => rfl, ?_, ?_, ?_⟩
  · intro env h
    simp [rfapiTokenAuthInit, rfapiTokenAuthCall, h]
  · intro env h1 h2
    simp [redTokenAuthInit, findTokenRed, h1, h2, Except.map]
  · intro token env h
    simp [redTokenAuthInit, h]

/-- C9 witness: with an environment holding no token variable, the old
provider constructs fine and fails at first use, while the new provider's
auto mode fails at construction; an explicit token constructs fine. -/
theorem C9_witness :
    rfapiTokenAuthCall (rfapiTokenAuthInit "auto" [("HOME", "/root")]) =
      .error .missingAuth ∧
    redTokenAuthInit "auto" [("HOME", "/root")] = .error .missingAuth ∧
    redTokenAuthInit "mytoken" [] = .ok ⟨some "mytoken"⟩ := by
  exact ⟨C9_amended.2.1 [("HOME", "/root")] rfl,
    C9_amended.2.2.1 [("HOME", "/root")] rfl rfl,
    C9_amended.2.2.2 "mytoken" [] (by decide)⟩

/-! ### Claim C3 — fail-fast validation of paged queries -/

/-- C3 counterexample.  `ApiClient.paged_query` does NOT reject aggregate
queries: on `{"entity": {}, "output": {"count": true}}` it raises nothing and
sends an HTTP request (one scripted response suffices for a full run), where
the claim requires an InvalidQuery-class error before any HTTP call. -/
theorem C3_counterexample :
    (apiPagedRun c3AggQuery (some 1) 10 none false [.resp c1Page2]).sent.length
        = 1 ∧
    (apiPagedRun c3AggQuery (some 1) 10 none false [.resp c1Page2]).outcome
        = .finished := by
  exact ⟨rfl, rfl⟩

/-- C3 amended: `RawApiClient.paged_query` raises `InvalidRFQError` before any
HTTP call both for queries without a recognizable kind and for aggregate
queries; `ApiClient.paged_query` raises only for unknown kinds — with
`UnknownQueryTypeError`, a sibling taxon of InvalidQuery in the spec's error
taxonomy, not an InvalidQuery-class error — and performs no aggregate check
at all. -/
theorem C3_amended :
    (∀ q0 l b f u raw evs, getQueryType q0 = none →
      redPagedRun q0 l b f u raw evs = ⟨[], [], false, .raised .invalidRFQ⟩) ∧
    (∀ q0 qt l b f u raw evs, getQueryType q0 = some qt →
      aggregateCheck q0 = true →
      redPagedRun q0 l b f u raw evs = ⟨[], [], false, .raised .invalidRFQ⟩) ∧
    (∀ q0 l b f u evs, getQueryType q0 = none →
      apiPagedRun q0 l b f u evs = ⟨[], [], false, .raised .unknownQueryType⟩) := by
  refine ⟨?_, ?_, ?_⟩
  · intro q0 l b f u raw evs h
    simp [redPagedRun, h]
  · intro q0 qt l b f u raw evs hqt hagg
    simp [redPagedRun, hqt, hagg]
  · intro q0 l b f u evs h
    simp [apiPagedRun, h]

/-- C3 witness: a kindless query is rejected by both clients with an empty
`sent` list, and the new client rejects the aggregate query likewise. -/
theorem C3_witness :
    redPagedRun [("foo", .null)] (some 1) 10 none false false [] =
      ⟨[], [], false, .raised .invalidRFQ⟩ ∧
    redPagedRun c3AggQuery (some 1) 10 none false false [.resp c1Page2] =
      ⟨[], [], false, .raised .invalidRFQ⟩ ∧
    apiPagedRun [("foo", .null)] (some 1) 10 none false [] =
      ⟨[], [], false, .raised .unknownQueryType⟩ := by
  exact ⟨C3_amended.1 [("foo", .null)] (some 1) 10 none false false [] rfl,
    C3_amended.2.1 c3AggQuery "entity" (some 1) 10 none false false
      [.resp c1Page2] rfl rfl,
    C3_amended.2.2 [("foo", .null)] (some 1) 10 none false [] rfl⟩

/-! ### Claim C10 — `dot_index` is partial (KeyError on absent segments) -/

/-- Helper: broadcasting a key over a list of mappings raises KeyError as
soon as one mapping lacks the key. -/
theorem navList_keyError (k : String) :
    ∀ xs, (∀ x ∈ xs, ∃ kvs, x = JVal.obj kvs) →
      (∃ kvs, JVal.obj kvs ∈ xs ∧ lookupKV kvs k = none) →
      navList k xs = .error .keyError := by
  intro xs
  induction xs with
  | nil =>
    intro _ hex
    rcases hex with ⟨kvs, hmem, _⟩
    simp at hmem
  | cons x xs ih =>
    intro hall hex
    rcases hall x (List.mem_cons_self x xs) with ⟨kvs0, rfl⟩
    cases hk : lookupKV kvs0 k with
    | none => simp [navList, pyIndex, hk, Except.bind]
    | some w =>
      rcases hex with ⟨kvs, hmem, hnone⟩
      rcases List.mem_cons.mp hmem with hhead | htail
      · cases hhead
        rw [hk] at hnone
        cases hnone
      · have := ih (fun y hy => hall y (List.mem_cons_of_mem _ hy)) ⟨kvs, htail, hnone⟩
        simp [navList, pyIndex, hk, Except.bind, Except.map, this]

/-- C10: `dot_index` is a partial function.  (1) If navigation reaches a
mapping that lacks the next segment, the whole resolution raises KeyError;
(2) likewise when any mapping inside a list at that depth lacks the segment;
(3) hence a single-segment index absent from the mapping makes `dot_index`
raise KeyError rather than return an empty list; (4) consequently
`ApiClient.paged_query` with a `field` whose resolution raises KeyError on a
page's JSON result propagates the KeyError to the consumer and yields
nothing from that page. -/
theorem C10_theorem :
    (∀ ks1 k ks2 data kvs, navKeys ks1 data = .ok (.obj kvs) →
      lookupKV kvs k = none →
      navKeys (ks1 ++ k :: ks2) data = .error .keyError) ∧
    (∀ xs k, (∀ x ∈ xs, ∃ kvs, x = JVal.obj kvs) →
      (∃ kvs, JVal.obj kvs ∈ xs ∧ lookupKV kvs k = none) →
      navKey (.arr xs) k = .error .keyError) ∧
    (∀ k kvs, k ≠ "" → splitDots k = [k] → lookupKV kvs k = none →
      dotIndex k (.obj kvs) = .error .keyError) ∧
    (∀ q0 qt body rkvs f u l b r rest,
      getQueryType q0 = some qt →
      lookupKV q0 qt = some (.obj body) →
      lookupKV q0 "output" = none →
      r.status = 200 →
      r.jsonBody = some (.obj rkvs) →
      lookupKV rkvs "status" = none →
      dotIndex f (.obj rkvs) = .error .keyError →
      (apiPagedRun q0 l b (some f) u (.resp r :: rest)).yields = [] ∧
      (apiPagedRun q0 l b (some f) u (.resp r :: rest)).outcome =
        .raised (.pyError .keyError)) := by
  refine ⟨?_, ?_, ?_, ?_⟩
  · intro ks1 k ks2 data kvs h1 h2
    rw [navKeys_append, h1]
    simp [Except.bind, navKeys, navKey, pyIndex, h2]
  · intro xs k hall hex
    simp [navKey, navList_keyError k xs hall hex, Except.map]
  · intro k kvs hne hsplit hnone
    have hb : (k == "") = false := beq_eq_false_iff_ne.mpr hne
    simp [dotIndex, hb, hsplit, navKeys, navKey, pyIndex, hnone, Except.bind,
      Except.map]
  · intro q0 qt body rkvs f u l b r rest hqt hbody hout hst hjson hrstatus hdot
    have hqtne : qt ≠ "output" := by
      rcases queryType_cases q0 qt hqt with h | h | h | h | h <;> subst h <;> decide
    have hq1out :
        lookupKV (dictSet q0 qt (.obj (dictSet body "limit"
          (.num (match l with | none => b | some l' => min b l'))))) "output"
          = none := by
      rw [lookup_dictSet_other q0 qt "output" _ (Ne.symm hqtne), hout]
    constructor <;>
      simp [apiPagedRun, hqt, hbody, apiPagedLoop, apiQuery, hst, makeResponse,
        outputFormatNotJson, hq1out, hjson, hrstatus, lookupKV, JVal.beq,
        apiPage, hdot]

/-- C10 witness: a single-segment `"instances"` field absent from
`{"other": 1}` raises KeyError, and an `ApiClient.paged_query` run over such
a page raises KeyError to the consumer with no yields. -/
theorem C10_witness :
    dotIndex "instances" (.obj [("other", .num 1)]) = .error .keyError ∧
    (apiPagedRun [("entity", .obj [])] (some 5) 10 (some "instances") false
      [.resp c10Page]).yields = [] ∧
    (apiPagedRun [("entity", .obj [])] (some 5) 10 (some "instances") false
      [.resp c10Page]).outcome = .raised (.pyError .keyError) := by
  refine ⟨C10_theorem.2.2.1 "instances" [("other", .num 1)] (by decide) rfl rfl, ?_, ?_⟩
  · exact (C10_theorem.2.2.2 [("entity", .obj [])] "entity" [] [("other", .num 1)]
      "instances" false (some 5) 10 c10Page [] rfl rfl rfl rfl rfl rfl rfl).1
  · exact (C10_theorem.2.2.2 [("entity", .obj [])] "entity" [] [("other", .num 1)]
      "instances" false (some 5) 10 c10Page [] rfl rfl rfl rfl rfl rfl rfl).2

/-! ### Claim C2 — the per-page limit across calls -/

/-- Helper: writing `page_start` into the kind body leaves the stored
`limit` untouched. -/
theorem kindLimit_setInKind_ps (q : Query) (qt : String) (v : JVal) :
    kindLimit (setInKind q qt "page_start" v) qt = kindLimit q qt := by
  cases hb : lookupKV q qt with
  | none => simp [setInKind, hb]
  | some w =>
    cases w with
    | obj body =>
      simp [setInKind, kindLimit, hb, lookup_dictSet_self,
        lookup_dictSet_other body "page_start" "limit" v (by decide)]
    | null => simp [setInKind, hb]
    | bool b => simp [setInKind, hb]
    | num n => simp [setInKind, hb]
    | str s => simp [setInKind, hb]
    | arr xs => simp [setInKind, hb]
    | pairv k' v' => simp [setInKind, hb]

/-- Helper: the only continuation the old client's after-page check produces
is the cursor write. -/
theorem apiAfterCheck_contA (qt : String) (qr : QueryResponse) (q q' : Query)
    (h : apiAfterCheck qt qr q = .contA q') :
    q' = setInKind q qt "page_start" (pageStartVal (respOf qr)) := by
  unfold apiAfterCheck at h
  split at h <;> simp_all

/-- Helper: likewise for the new client's after-page checks. -/
theorem redAfterCheck_contA (qt : String) (lim : Option Int)
    (qr : QueryResponse) (n : Int) (q q' : Query)
    (h : redAfterCheck qt lim qr n q = .contA q') :
    q' = setInKind q qt "page_start" (pageStartVal (respOf qr)) := by
  unfold redAfterCheck at h
  split at h
  · simp_all
  · simp_all
  · split at h
    · simp_all
    · simp_all
    · split at h <;> simp_all

/-- Helper: every query the old client's loop sends carries the same stored
kind-body `limit` as the loop's entry query. -/
theorem apiLoop_kindLimit (qt : String) (lim : Option Int) (f : Option String)
    (u : Bool) (v : JVal) :
    ∀ evs (q : Query) seen n, kindLimit q qt = some v →
      ∀ qs ∈ (apiPagedLoop qt lim f u q seen n evs).sent,
        kindLimit qs qt = some v := by
  intro evs
  induction evs with
  | nil => intro q seen n h qs hqs; simp [apiPagedLoop] at hqs
  | cons ev rest ih =>
    intro q seen n h qs hqs
    cases hq : apiQuery q ev with
    | error e =>
      simp only [apiPagedLoop, hq] at hqs
      simp at hqs
      subst hqs; exact h
    | ok qr =>
      cases hp : apiPage lim f u qr seen n with
      | raisedP ys e =>
        simp only [apiPagedLoop, hq, hp] at hqs
        simp at hqs
        subst hqs; exact h
      | doneP ys =>
        simp only [apiPagedLoop, hq, hp] at hqs
        simp at hqs
        subst hqs; exact h
      | contP ys seen' n' =>
        cases hc : apiAfterCheck qt qr q with
        | stopA oc =>
          simp only [apiPagedLoop, hq, hp, hc] at hqs
          simp at hqs
          subst hqs; exact h
        | contA q' =>
          simp only [apiPagedLoop, hq, hp, hc] at hqs
          simp only [List.mem_cons] at hqs
          rcases hqs with rfl | hmem
          · exact h
          · have hq' : kindLimit q' qt = some v := by
              rw [apiAfterCheck_contA qt qr q q' hc, kindLimit_setInKind_ps, h]
            exact ih q' seen' n' hq' qs hmem

/-- Helper: every query the new client's loop sends carries the same stored
kind-body `limit` as the loop's entry query. -/
theorem redLoop_kindLimit (qt : String) (lim : Option Int) (f : Option String)
    (u raw : Bool) (v : JVal) :
    ∀ fuel evs (q : Query) seen n, kindLimit q qt = some v →
      ∀ qs ∈ (redPagedLoop qt lim f u raw fuel q seen n evs).sent,
        kindLimit qs qt = some v := by
  intro fuel
  induction fuel with
  | zero => intro evs q seen n h qs hqs; simp [redPagedLoop] at hqs
  | succ fuel ih =>
    intro evs q seen n h qs hqs
    cases evs with
    | nil => simp [redPagedLoop] at hqs
    | cons ev rest =>
      cases hpr : (rawQuery q DEFAULT_RETRIES (ev :: rest)).1 with
      | noEvents =>
        simp only [redPagedLoop, hpr] at hqs
        simp at hqs
        subst hqs; exact h
      | raised e =>
        simp only [redPagedLoop, hpr] at hqs
        simp at hqs
        subst hqs; exact h
      | ok qr =>
        cases hp : redPage lim f u raw qr seen n with
        | raisedP ys e =>
          simp only [redPagedLoop, hpr, hp] at hqs
          simp at hqs
          subst hqs; exact h
        | doneP ys =>
          simp only [redPagedLoop, hpr, hp] at hqs
          simp at hqs
          subst hqs; exact h
        | contP ys seen' n' =>
          cases hc : redAfterCheck qt lim qr n' q with
          | stopA oc =>
            simp only [redPagedLoop, hpr, hp, hc] at hqs
            simp at hqs
            subst hqs; exact h
          | contA q' =>
            simp only [redPagedLoop, hpr, hp, hc] at hqs
            simp only [List.mem_cons] at hqs
            rcases hqs with rfl | hmem
            · exact h
            · have hq' : kindLimit q' qt = some v := by
                rw [redAfterCheck_contA qt lim qr n' q q' hc,
                  kindLimit_setInKind_ps, h]
              exact ih _ q' seen' n' hq' qs hmem

/-- C2 counterexample.  A `RawApiClient.paged_query` run with `batch_size=10`,
`limit=25` over `instances` pages of 10, 10 and 5 items: before the third
HTTP call 20 items have been yielded, so the claim requires the stored
per-page limit to be `min(10, 25-20) = 5` — but the query sent on the third
call still stores `limit = 10`.  (The whole run yields 25 items over 3
calls.) -/
theorem C2_counterexample :
    (redPagedRun [("reference", .obj [])] (some 25) 10 (some "instances")
      false false c2Events).sent.length = 3 ∧
    kindLimit ((redPagedRun [("reference", .obj [])] (some 25) 10
      (some "instances") false false c2Events).sent.getD 2 []) "reference" =
      some (.num 10) ∧
    (redPagedRun [("reference", .obj [])] (some 25) 10 (some "instances")
      false false c2Events).yields.length = 25 ∧
    (10 : Int) ≠ min 10 (25 - 20) := by
  exact ⟨rfl, rfl, rfl, by decide⟩

/-- C2 amended: the per-page limit is computed once, before the first call,
as `min(batch_size, limit)`, and stays fixed on every subsequent call (only
`page_start` is rewritten between calls); a caller-embedded `limit` in the
kind body is overwritten, with a `SyntaxWarning` in the new client (the old
client overwrites silently). -/
theorem C2_amended :
    (∀ q0 qt body l batch f u evs,
      getQueryType q0 = some qt →
      lookupKV q0 qt = some (.obj body) →
      ∀ qs ∈ (apiPagedRun q0 (some l) batch f u evs).sent,
        kindLimit qs qt = some (.num (min batch l))) ∧
    (∀ q0 qt body l batch f u raw evs,
      getQueryType q0 = some qt →
      aggregateCheck q0 = false →
      lookupKV q0 qt = some (.obj body) →
      (redPagedRun q0 (some l) batch f u raw evs).warned =
        (lookupKV body "limit").isSome ∧
      ∀ qs ∈ (redPagedRun q0 (some l) batch f u raw evs).sent,
        kindLimit qs qt = some (.num (min batch l))) := by
  constructor
  · intro q0 qt body l batch f u evs hqt hbody qs hqs
    simp only [apiPagedRun, hqt, hbody] at hqs
    refine apiLoop_kindLimit qt (some l) f u (.num (min batch l)) evs _ [] 0
      ?_ qs hqs
    simp [kindLimit, lookup_dictSet_self]
  · intro q0 qt body l batch f u raw evs hqt hagg hbody
    constructor
    · simp [redPagedRun, hqt, hagg, hbody]
    · intro qs hqs
      simp only [redPagedRun, hqt, hagg, hbody] at hqs
      simp only [Bool.false_eq_true, if_false] at hqs
      refine redLoop_kindLimit qt (some l) f u raw (.num (min batch l))
        evs.length evs _ [] 0 ?_ qs hqs
      simp [kindLimit, lookup_dictSet_self]

/-- C2 witness: with an embedded `limit: 7` in the kind body, the new client
warns and every sent query stores `limit = min(10, 25) = 10`; the old client
likewise overwrites (no warning). -/
theorem C2_witness :
    (redPagedRun [("reference", .obj [("limit", .num 7)])] (some 25) 10
      (some "instances") false false c2Events).warned = true ∧
    (∀ qs ∈ (redPagedRun [("reference", .obj [("limit", .num 7)])] (some 25)
        10 (some "instances") false false c2Events).sent,
      kindLimit qs "reference" = some (.num (min 10 25))) ∧
    (∀ qs ∈ (apiPagedRun [("entity", .obj [])] (some 25) 10 (some "instances")
        false c2Events).sent, kindLimit qs "entity" = some (.num (min 10 25))) := by
  refine ⟨?_, ?_, ?_⟩
  · have := (C2_amended.2 [("reference", .obj [("limit", .num 7)])] "reference"
      [("limit", .num 7)] 25 10 (some "instances") false false c2Events
      rfl rfl rfl).1
    simpa using this
  · exact (C2_amended.2 [("reference", .obj [("limit", .num 7)])] "reference"
      [("limit", .num 7)] 25 10 (some "instances") false false c2Events
      rfl rfl rfl).2
  · exact C2_amended.1 [("entity", .obj [])] "entity" [] 25 10
      (some "instances") false c2Events rfl rfl

/-! ### Claim C4 — the CSV scenario (batch 10, limit 25) -/

/-- C4, code bug in the old client.  Against a server supplying 26 CSV data
rows (pages of 10, 10 and 6, each page led by its header line),
`RawApiClient.paged_query` behaves exactly as the claim says — the header
once, then exactly 25 data rows, then stop.  `ApiClient.paged_query` on the
identical server yields the header but only 23 data rows: its
`next(csv_reader)  # skip header` executes after `fieldnames` has already
consumed the header line, so it silently discards the first DATA row of every
page, contradicting its own comment (and the spec scenario). -/
theorem C4_theorem :
    countHeaderRows (redPagedRun c4Query (some 25) 10 none false false
      c4Events).yields = 1 ∧
    countCsvRows (redPagedRun c4Query (some 25) 10 none false false
      c4Events).yields = 25 ∧
    (redPagedRun c4Query (some 25) 10 none false false c4Events).outcome =
      .finished ∧
    (redPagedRun c4Query (some 25) 10 none false false c4Events).yields.head? =
      some (.headerRow (some ["h1", "h2"])) ∧
    countHeaderRows (apiPagedRun c4Query (some 25) 10 none false
      c4Events).yields = 1 ∧
    countCsvRows (apiPagedRun c4Query (some 25) 10 none false
      c4Events).yields = 23 ∧
    (apiPagedRun c4Query (some 25) 10 none false c4Events).outcome =
      .finished := by
  exact ⟨rfl, rfl, rfl, rfl, rfl, rfl, rfl⟩

/-! ### Claim C1 — `limit` bounds the yielded items -/

/-- C1 counterexample.  `ApiClient.paged_query` with `limit=1` and
`field=None` over two JSON pages (the first advertising a further cursor)
yields 2 items — the `field is None` branch yields whole page results
without ever counting them against `limit`, and keeps paging while
`has_more_results` holds. -/
theorem C1_counterexample :
    (apiPagedRun [("entity", .obj [])] (some 1) 10 none false
      [.resp c1Page1, .resp c1Page2]).yields.length = 2 ∧
    (apiPagedRun [("entity", .obj [])] (some 1) 10 none false
      [.resp c1Page1, .resp c1Page2]).outcome = .finished := by
  exact ⟨rfl, rfl⟩

/-! ### Claim C1: inner-loop accounting lemmas -/

/-- Helper: key-presence test agrees with lookup. -/
theorem any_eq_lookup_isSome (kvs : List (String × JVal)) (k : String) :
    (kvs.any (fun kv => kv.1 == k)) = (lookupKV kvs k).isSome := by
  induction kvs with
  | nil => simp [lookupKV]
  | cons kv rest ih =>
    obtain ⟨j, w⟩ := kv
    by_cases h : j = k
    · subst h; simp [lookupKV]
    · simp [lookupKV, h, ih]

/-- Helper: nothing counted in an empty yield list. -/
theorem countedYields_nil : countedYields [] = 0 := rfl

/-- Helper: a `dot_index` item yield counts. -/
theorem countedYields_cons_field (v : JVal) (ys : List YieldItem) :
    countedYields (.fieldItem v :: ys) = countedYields ys + 1 := by
  simp [countedYields, List.countP_cons, isCountedYield]

/-- Helper: a CSV data-row yield counts. -/
theorem countedYields_cons_row (cells : List (String × String))
    (ys : List YieldItem) :
    countedYields (.csvRow cells :: ys) = countedYields ys + 1 := by
  simp [countedYields, List.countP_cons, isCountedYield]

/-- Helper: an uncounted yield leaves the tally unchanged. -/
theorem countedYields_cons_un (y : YieldItem) (ys : List YieldItem)
    (h : isCountedYield y = false) :
    countedYields (y :: ys) = countedYields ys := by
  simp [countedYields, List.countP_cons, h]

/-- Helper: the tally is additive over concatenation. -/
theorem countedYields_append (a b : List YieldItem) :
    countedYields (a ++ b) = countedYields a + countedYields b := by
  simp [countedYields, List.countP_append]

/-- Helper: the JSON item loop increments `n_results` exactly once per yield,
all its yields are counted items, and when entered below the limit it leaves
`n_results ≤ limit` (strictly below when it did not `return`). -/
theorem jsonItemsLoop_spec (u : Bool) (l : Int) :
    ∀ (items seen : List JVal) (n : Int),
      ((jsonItemsLoop u (some l) items seen n).n =
        n + ((jsonItemsLoop u (some l) items seen n).ys.length : Int)) ∧
      (countedYields (jsonItemsLoop u (some l) items seen n).ys =
        (jsonItemsLoop u (some l) items seen n).ys.length) ∧
      (n < l → (jsonItemsLoop u (some l) items seen n).n ≤ l) ∧
      (n < l → (jsonItemsLoop u (some l) items seen n).ret = false →
        (jsonItemsLoop u (some l) items seen n).n < l) := by
  intro items
  induction items with
  | nil =>
    intro seen n
    refine ⟨by simp [jsonItemsLoop], by simp [jsonItemsLoop, countedYields],
      fun h => by simp [jsonItemsLoop]; omega,
      fun h _ => by simp [jsonItemsLoop]; omega⟩
  | cons item items ih =>
    intro seen n
    by_cases hskip : (u && seen.any (fun s => JVal.beq s item)) = true
    · simpa [jsonItemsLoop, hskip] using ih seen n
    · by_cases hhit : limitHit (some l) (n + 1) = true
      · simp only [jsonItemsLoop, hskip, hhit, Bool.false_eq_true, if_false,
          if_true]
        refine ⟨by simp, by simp [countedYields, isCountedYield], ?_, ?_⟩
        · intro hn
          show n + 1 ≤ l
          omega
        · intro _ hfalse
          simp at hfalse
      · have hl : ¬ l ≤ n + 1 := by simpa [limitHit] using hhit
        have IH := ih (if u then item :: seen else seen) (n + 1)
        simp only [jsonItemsLoop, hskip, hhit, Bool.false_eq_true, if_false]
        obtain ⟨ih1, ih2, ih3, ih4⟩ := IH
        refine ⟨?_, ?_, ?_, ?_⟩
        · simp only [List.length_cons]
          omega
        · rw [countedYields_cons_field, List.length_cons]
          omega
        · intro _
          exact ih3 (by omega)
        · intro _ hret
          exact ih4 (by omega) hret

/-- Helper: the CSV row loop increments `n_results` exactly once per yield,
all its yields are counted rows, and when entered below the limit it leaves
`n_results ≤ limit` (strictly below when it did not `return`). -/
theorem csvRowsLoop_spec (l : Int) (fns : List String) :
    ∀ (rows : List (List String)) (n : Int),
      ((csvRowsLoop (some l) fns rows n).n =
        n + ((csvRowsLoop (some l) fns rows n).ys.length : Int)) ∧
      (countedYields (csvRowsLoop (some l) fns rows n).ys =
        (csvRowsLoop (some l) fns rows n).ys.length) ∧
      (n < l → (csvRowsLoop (some l) fns rows n).n ≤ l) ∧
      (n < l → (csvRowsLoop (some l) fns rows n).ret = false →
        (csvRowsLoop (some l) fns rows n).n < l) := by
  intro rows
  induction rows with
  | nil =>
    intro n
    refine ⟨by simp [csvRowsLoop], by simp [csvRowsLoop, countedYields],
      fun h => by simp [csvRowsLoop]; omega,
      fun h _ => by simp [csvRowsLoop]; omega⟩
  | cons row rows ih =>
    intro n
    by_cases hhit : limitHit (some l) (n + 1) = true
    · simp only [csvRowsLoop, hhit, if_true]
      refine ⟨by simp, by simp [countedYields, isCountedYield], ?_, ?_⟩
      · intro hn
        show n + 1 ≤ l
        omega
      · intro _ hfalse
        simp at hfalse
    · have hl : ¬ l ≤ n + 1 := by simpa [limitHit] using hhit
      have IH := ih (n + 1)
      simp only [csvRowsLoop, hhit, Bool.false_eq_true, if_false]
      obtain ⟨ih1, ih2, ih3, ih4⟩ := IH
      refine ⟨?_, ?_, ?_, ?_⟩
      · simp only [List.length_cons]
        omega
      · rw [countedYields_cons_row, List.length_cons]
        omega
      · intro _
        exact ih3 (by omega)
      · intro _ hret
        exact ih4 (by omega) hret

/-- Helper: the optional header yield never counts. -/
theorem countedYields_headYs (b : Bool) (c : Option (List String)) :
    countedYields (if b then [YieldItem.headerRow c] else []) = 0 := by
  by_cases h : b = true <;>
    simp [h, countedYields, List.countP_cons, isCountedYield]

/-- Helper: page-level accounting for the old client.  Entered below the
limit, a page raising or returning keeps the counted yields within the
limit, and a page falling through to the after-page checks has counted
exactly its `n_results` increment and is still strictly below the limit. -/
theorem apiPage_bound (l : Int) (f : Option String) (u : Bool)
    (qr : QueryResponse) (seen : List JVal) (n : Int) (hn : n < l) :
    (∀ ys e, apiPage (some l) f u qr seen n = .raisedP ys e →
      (countedYields ys : Int) + n ≤ l) ∧
    (∀ ys, apiPage (some l) f u qr seen n = .doneP ys →
      (countedYields ys : Int) + n ≤ l) ∧
    (∀ ys seen' n', apiPage (some l) f u qr seen n = .contP ys seen' n' →
      (countedYields ys : Int) + n = n' ∧ n' < l) := by
  cases qr with
  | jsonQR res r =>
    cases f with
    | none =>
      refine ⟨?_, ?_, ?_⟩
      · intro ys e h; simp [apiPage] at h
      · intro ys h; simp [apiPage] at h
      · intro ys seen' n' h
        simp only [apiPage, PageOut.contP.injEq] at h
        obtain ⟨rfl, rfl, rfl⟩ := h
        refine ⟨?_, hn⟩
        simp [countedYields, List.countP_cons, isCountedYield]
    | some fl =>
      cases hd : dotIndex fl res with
      | error pe =>
        refine ⟨?_, ?_, ?_⟩
        · intro ys e h
          simp only [apiPage, hd, PageOut.raisedP.injEq] at h
          obtain ⟨rfl, rfl⟩ := h
          simp [countedYields_nil]
          omega
        · intro ys h; simp [apiPage, hd] at h
        · intro ys seen' n' h; simp [apiPage, hd] at h
      | ok items =>
        obtain ⟨s1, s2, s3, s4⟩ := jsonItemsLoop_spec u l items seen n
        by_cases hr : (jsonItemsLoop u (some l) items seen n).ret = true
        · refine ⟨?_, ?_, ?_⟩
          · intro ys e h; simp [apiPage, hd, hr] at h
          · intro ys h
            simp only [apiPage, hd, hr, if_true, PageOut.doneP.injEq] at h
            subst h
            have := s3 hn
            omega
          · intro ys seen' n' h; simp [apiPage, hd, hr] at h
        · refine ⟨?_, ?_, ?_⟩
          · intro ys e h; simp [apiPage, hd, hr] at h
          · intro ys h; simp [apiPage, hd, hr] at h
          · intro ys seen' n' h
            simp only [apiPage, hd, hr, Bool.false_eq_true, if_false,
              PageOut.contP.injEq] at h
            obtain ⟨rfl, rfl, rfl⟩ := h
            refine ⟨by omega, ?_⟩
            exact s4 hn (Bool.not_eq_true _ ▸ hr)
  | csvQR text r =>
    cases hrows : r.csvRows with
    | nil =>
      refine ⟨?_, ?_, ?_⟩
      · intro ys e h
        simp only [apiPage, hrows, PageOut.raisedP.injEq] at h
        obtain ⟨rfl, rfl⟩ := h
        rw [countedYields_headYs]
        omega
      · intro ys h; simp [apiPage, hrows] at h
      · intro ys seen' n' h; simp [apiPage, hrows] at h
    | cons hdr rest0 =>
      cases rest0 with
      | nil =>
        refine ⟨?_, ?_, ?_⟩
        · intro ys e h
          simp only [apiPage, hrows, PageOut.raisedP.injEq] at h
          obtain ⟨rfl, rfl⟩ := h
          rw [countedYields_headYs]
          omega
        · intro ys h; simp [apiPage, hrows] at h
        · intro ys seen' n' h; simp [apiPage, hrows] at h
      | cons drop data =>
        obtain ⟨s1, s2, s3, s4⟩ := csvRowsLoop_spec l hdr data n
        by_cases hr : (csvRowsLoop (some l) hdr data n).ret = true
        · refine ⟨?_, ?_, ?_⟩
          · intro ys e h; simp [apiPage, hrows, hr] at h
          · intro ys h
            simp only [apiPage, hrows, hr, if_true, PageOut.doneP.injEq] at h
            subst h
            rw [countedYields_append, countedYields_headYs]
            have := s3 hn
            omega
          · intro ys seen' n' h; simp [apiPage, hrows, hr] at h
        · refine ⟨?_, ?_, ?_⟩
          · intro ys e h; simp [apiPage, hrows, hr] at h
          · intro ys h; simp [apiPage, hrows, hr] at h
          · intro ys seen' n' h
            simp only [apiPage, hrows, hr, Bool.false_eq_true, if_false,
              PageOut.contP.injEq] at h
            obtain ⟨rfl, rfl, rfl⟩ := h
            constructor
            · rw [countedYields_append, countedYields_headYs]
              omega
            · exact s4 hn (Bool.not_eq_true _ ▸ hr)
  | baseQR text r =>
    refine ⟨?_, ?_, ?_⟩
    · intro ys e h; simp [apiPage] at h
    · intro ys h
      simp only [apiPage, PageOut.doneP.injEq] at h
      subst h
      simp [countedYields, List.countP_cons, isCountedYield]
      omega
    · intro ys seen' n' h; simp [apiPage] at h

/-- Helper: the old client's whole page loop, entered below the limit, keeps
the counted yields plus the entry `n_results` within the limit. -/
theorem apiLoop_bound (qt : String) (l : Int) (f : Option String) (u : Bool) :
    ∀ evs (q : Query) seen n, n < l →
      (countedYields (apiPagedLoop qt (some l) f u q seen n evs).yields : Int)
        + n ≤ l := by
  intro evs
  induction evs with
  | nil =>
    intro q seen n hn
    simp only [apiPagedLoop]
    rw [countedYields_nil]
    omega
  | cons ev rest ih =>
    intro q seen n hn
    cases hq : apiQuery q ev with
    | error e =>
      simp only [apiPagedLoop, hq]
      show (countedYields [] : Int) + n ≤ l
      rw [countedYields_nil]
      omega
    | ok qr =>
      obtain ⟨pb1, pb2, pb3⟩ := apiPage_bound l f u qr seen n hn
      cases hp : apiPage (some l) f u qr seen n with
      | raisedP ys e =>
        simp only [apiPagedLoop, hq, hp]
        exact pb1 ys e hp
      | doneP ys =>
        simp only [apiPagedLoop, hq, hp]
        exact pb2 ys hp
      | contP ys seen' n' =>
        obtain ⟨hcnt, hlt⟩ := pb3 ys seen' n' hp
        cases hc : apiAfterCheck qt qr q with
        | stopA oc =>
          simp only [apiPagedLoop, hq, hp, hc]
          show (countedYields ys : Int) + n ≤ l
          omega
        | contA q' =>
          simp only [apiPagedLoop, hq, hp, hc]
          show (countedYields (ys ++
            (apiPagedLoop qt (some l) f u q' seen' n' rest).yields) : Int)
              + n ≤ l
          rw [countedYields_append]
          have := ih q' seen' n' hlt
          omega

/-- Helper: a successful classification wraps exactly the delivered response,
consistently. -/
theorem makeResponse_ok (pf : RfError) (q : Query) (r : ServerResponse)
    (qr : QueryResponse) (h : makeResponse pf q r = .ok qr) :
    respOf qr = r ∧ respConsistent qr := by
  unfold makeResponse at h
  cases hoj : outputFormatNotJson q with
  | error pe => rw [hoj] at h; cases h
  | ok nj =>
    rw [hoj] at h
    by_cases hnj : nj = true
    · simp only [hnj, if_true] at h
      by_cases hcsv : substrB (r.contentType.getD "") "csv" = true
      · simp only [hcsv, if_true] at h
        cases h
        exact ⟨rfl, trivial⟩
      · simp only [hcsv, Bool.false_eq_true, if_false] at h
        cases h
        exact ⟨rfl, trivial⟩
    · have hnj' : nj = false := by simpa using hnj
      simp only [hnj', Bool.false_eq_true, if_false] at h
      cases hjb : r.jsonBody with
      | none => rw [hjb] at h; cases h
      | some j =>
        rw [hjb] at h
        cases j with
        | obj kvs =>
          by_cases hfail :
              JVal.beq ((lookupKV kvs "status").getD (.str "")) (.str "FAILURE")
                = true
          · simp only [hfail, if_true] at h
            cases h
          · simp only [hfail, Bool.false_eq_true, if_false] at h
            cases h
            exact ⟨rfl, hjb⟩
        | null => simp at h
        | bool b => simp at h
        | num k => simp at h
        | str s => simp at h
        | arr xs => simp at h
        | pairv k' v' => simp at h

/-- Helper: the retry loop only ever hands back a suffix of its events. -/
theorem rawQueryGo_sub (q : Query) (b : Bool) :
    ∀ evs t x, x ∈ (rawQueryGo q b t evs).2 → x ∈ evs := by
  intro evs
  induction evs with
  | nil => intro t x hx; simp [rawQueryGo] at hx
  | cons ev rest ih =>
    intro t x hx
    cases ev with
    | readTimeout =>
      simp only [rawQueryGo] at hx
      split at hx
      · exact List.mem_cons_of_mem _ hx
      · split at hx
        · exact List.mem_cons_of_mem _ (ih _ x hx)
        · exact List.mem_cons_of_mem _ hx
    | resp r =>
      simp only [rawQueryGo] at hx
      split at hx
      · split at hx
        · split at hx
          · exact List.mem_cons_of_mem _ (ih _ x hx)
          · exact List.mem_cons_of_mem _ hx
        · exact List.mem_cons_of_mem _ hx
      · split at hx
        · exact List.mem_cons_of_mem _ hx
        · exact List.mem_cons_of_mem _ hx

/-- Helper: `query()` only ever hands back a suffix of its events. -/
theorem rawQuery_sub (q : Query) (t : Nat) (evs : List TransportEvent)
    (x : TransportEvent) (hx : x ∈ (rawQuery q t evs).2) : x ∈ evs := by
  unfold rawQuery at hx
  cases hsc : isScanE q with
  | error pe => rw [hsc] at hx; exact hx
  | ok sc => rw [hsc] at hx; exact rawQueryGo_sub q _ evs t x hx

/-- Helper: a successful `query()` produced its wrapper from one of the
scripted responses, so the wrapper inherits the nonnegative-counts property
and is consistent. -/
theorem rawQueryGo_ok (q : Query) (b : Bool) :
    ∀ evs t qr, (∀ ev ∈ evs, evCountsOK ev = true) →
      (rawQueryGo q b t evs).1 = .ok qr →
      countsNonnegB (respOf qr) = true ∧ respConsistent qr := by
  intro evs
  induction evs with
  | nil => intro t qr _ h; simp [rawQueryGo] at h
  | cons ev rest ih =>
    intro t qr hall h
    have hallrest : ∀ ev ∈ rest, evCountsOK ev = true :=
      fun y hy => hall y (List.mem_cons_of_mem _ hy)
    cases ev with
    | readTimeout =>
      simp only [rawQueryGo] at h
      split at h
      · cases h
      · split at h
        · exact ih _ qr hallrest h
        · cases h
    | resp r =>
      simp only [rawQueryGo] at h
      split at h
      · split at h
        · split at h
          · exact ih _ qr hallrest h
          · cases h
        · cases h
      · split at h
        · cases h
        · next hm =>
          cases h
          obtain ⟨hr, hc⟩ := makeResponse_ok .jsonParseError q r _ hm
          refine ⟨?_, hc⟩
          rw [hr]
          simpa [evCountsOK] using hall (.resp r) (List.mem_cons_self _ _)

/-- Helper: `rawQuery` version of the previous lemma. -/
theorem rawQuery_ok (q : Query) (t : Nat) (evs : List TransportEvent)
    (qr : QueryResponse) (hall : ∀ ev ∈ evs, evCountsOK ev = true)
    (h : (rawQuery q t evs).1 = .ok qr) :
    countsNonnegB (respOf qr) = true ∧ respConsistent qr := by
  unfold rawQuery at h
  cases hsc : isScanE q with
  | error pe => rw [hsc] at h; cases h
  | ok sc => rw [hsc] at h; exact rawQueryGo_ok q _ evs t qr hall h

/-- Helper: on a text result (CSV/XML body) without the count header,
`returned_count` can only succeed with `None` (its other paths raise). -/
theorem returnedCount_str_none (s : String) (r : ServerResponse)
    (hh : r.returnedCountH = none) :
    ∀ v, returnedCount (.str s) r = .ok v → v = none := by
  intro v hk
  unfold returnedCount at hk
  rw [hh] at hk
  by_cases h1 : substrB s "counts" = true
  · simp [pyContains, h1, Except.bind, pyIndex] at hk
  · by_cases h2 : substrB s "result" = true
    · simp [pyContains, h1, h2, Except.bind, pyIndex] at hk
    · simp [pyContains, h1, h2, Except.bind] at hk
      exact hk.symm

/-- Helper: whenever `returned_count` evaluates to a number on a response all
of whose reported counts are nonnegative (and whose result is the parsed
JSON body or a text), that number is nonnegative. -/
theorem returnedCount_nonneg (res : JVal) (r : ServerResponse)
    (hcnt : countsNonnegB r = true)
    (hres : r.jsonBody = some res ∨ ∃ s, res = .str s) :
    ∀ k, returnedCount res r = .ok (some (.num k)) → 0 ≤ k := by
  intro k hk
  cases hh : r.returnedCountH with
  | some k0 =>
    unfold returnedCount at hk
    rw [hh] at hk
    simp only [Except.ok.injEq, Option.some.injEq, JVal.num.injEq] at hk
    subst hk
    simp only [countsNonnegB, hh, Bool.and_eq_true, decide_eq_true_eq] at hcnt
    exact hcnt.1
  | none =>
    cases res with
    | str s =>
      have := returnedCount_str_none s r hh _ hk
      cases this
    | obj kvs =>
      have hjb : r.jsonBody = some (.obj kvs) := by
        rcases hres with hj | ⟨s, hs⟩
        · exact hj
        · cases hs
      unfold returnedCount at hk
      rw [hh] at hk
      rw [show pyContains (JVal.obj kvs) "counts" =
        .ok ((lookupKV kvs "counts").isSome) from by
          simp [pyContains, any_eq_lookup_isSome]] at hk
      cases hlk : lookupKV kvs "counts" with
      | some c =>
        simp only [hlk, Option.isSome_some, Except.bind, if_true] at hk
        cases c with
        | obj ckvs =>
          simp only [pyIndex, hlk, Except.bind] at hk
          cases hlr : lookupKV ckvs "returned" with
          | some v =>
            cases v with
            | num k0 =>
              rw [hlr] at hk
              simp only [Except.ok.injEq, Option.some.injEq,
                JVal.num.injEq] at hk
              subst hk
              simp only [countsNonnegB, hh, hjb, hlk, hlr,
                Bool.and_eq_true, decide_eq_true_eq] at hcnt
              exact hcnt.2.1
            | null => rw [hlr] at hk; simp at hk
            | bool b => rw [hlr] at hk; simp at hk
            | str s => rw [hlr] at hk; simp at hk
            | arr xs => rw [hlr] at hk; simp at hk
            | obj kvs2 => rw [hlr] at hk; simp at hk
            | pairv k2 v2 => rw [hlr] at hk; simp at hk
          | none => rw [hlr] at hk; simp at hk
        | null => simp [pyIndex, hlk, Except.bind] at hk
        | bool b => simp [pyIndex, hlk, Except.bind] at hk
        | num k2 => simp [pyIndex, hlk, Except.bind] at hk
        | str s => simp [pyIndex, hlk, Except.bind] at hk
        | arr xs => simp [pyIndex, hlk, Except.bind] at hk
        | pairv k2 v2 => simp [pyIndex, hlk, Except.bind] at hk
      | none =>
        simp only [hlk, Option.isSome_none, Except.bind, Bool.false_eq_true,
          if_false] at hk
        rw [show pyContains (JVal.obj kvs) "result" =
          .ok ((lookupKV kvs "result").isSome) from by
            simp [pyContains, any_eq_lookup_isSome]] at hk
        cases hlr : lookupKV kvs "result" with
        | some rv =>
          simp only [hlr, Option.isSome_some, Except.bind, if_true,
            pyIndex] at hk
          cases rv with
          | obj rkvs =>
            cases hlc : lookupKV rkvs "count" with
            | some cv =>
              cases cv with
              | num k0 =>
                simp [hlc, pyToInt, Except.bind, Except.map] at hk
                simp only [countsNonnegB, hh, hjb, hlk, hlr, hlc,
                  Bool.and_eq_true, decide_eq_true_eq] at hcnt
                have h3 : 0 ≤ k0 := hcnt.2.2
                omega
              | null => simp [hlc, pyToInt, Except.bind, Except.map] at hk
              | bool b => simp [hlc, pyToInt, Except.bind, Except.map] at hk
              | str s => simp [hlc, pyToInt, Except.bind, Except.map] at hk
              | arr xs => simp [hlc, pyToInt, Except.bind, Except.map] at hk
              | obj kvs2 => simp [hlc, pyToInt, Except.bind, Except.map] at hk
              | pairv k2 v2 =>
                simp [hlc, pyToInt, Except.bind, Except.map] at hk
            | none => simp [hlc, Except.bind, Except.map] at hk
          | null => simp [Except.bind] at hk
          | bool b => simp [Except.bind] at hk
          | num k2 => simp [Except.bind] at hk
          | str s => simp [Except.bind] at hk
          | arr xs => simp [Except.bind] at hk
          | pairv k2 v2 => simp [Except.bind] at hk
        | none => simp [hlr, Except.bind] at hk
    | null =>
      unfold returnedCount at hk
      rw [hh] at hk
      simp [pyContains, Except.bind] at hk
    | bool b =>
      unfold returnedCount at hk
      rw [hh] at hk
      simp [pyContains, Except.bind] at hk
    | num k2 =>
      unfold returnedCount at hk
      rw [hh] at hk
      simp [pyContains, Except.bind] at hk
    | pairv k2 v2 =>
      unfold returnedCount at hk
      rw [hh] at hk
      simp [pyContains, Except.bind] at hk
    | arr xs =>
      unfold returnedCount at hk
      rw [hh] at hk
      by_cases h1 : (xs.any fun x => JVal.beq x (.str "counts")) = true
      · simp [pyContains, h1, Except.bind, pyIndex] at hk
      · by_cases h2 : (xs.any fun x => JVal.beq x (.str "result")) = true
        · simp [pyContains, h1, h2, Except.bind, pyIndex] at hk
        · simp [pyContains, h1, h2, Except.bind] at hk

/-- Helper: `n_results += returned_count`, when it does not raise, never
decreases `n_results` on a response with nonnegative reported counts. -/
theorem addReturned_mono (qr : QueryResponse) (n n' : Int)
    (hcnt : countsNonnegB (respOf qr) = true) (hcons : respConsistent qr)
    (h : addReturned qr n = .ok n') : n ≤ n' := by
  unfold addReturned at h
  cases hrc : returnedCount (resultOf qr) (respOf qr) with
  | error e => rw [hrc] at h; cases h
  | ok rc =>
    rw [hrc] at h
    cases rc with
    | none => simp [Except.bind] at h
    | some v =>
      cases v with
      | num k =>
        simp only [Except.bind, Except.ok.injEq] at h
        have h0 : 0 ≤ k := by
          apply returnedCount_nonneg (resultOf qr) (respOf qr) hcnt ?_ k hrc
          cases qr with
          | jsonQR res r => exact Or.inl hcons
          | csvQR t r => exact Or.inr ⟨t, rfl⟩
          | baseQR t r => exact Or.inr ⟨t, rfl⟩
        omega
      | null => simp [Except.bind] at h
      | bool b => simp [Except.bind] at h
      | str s => simp [Except.bind] at h
      | arr xs => simp [Except.bind] at h
      | obj kvs => simp [Except.bind] at h
      | pairv k2 v2 => simp [Except.bind] at h

/-- Helper: page-level accounting for the new client (counts hypotheses as in
`addReturned_mono`).  A page that raises or returns keeps counted yields
within the limit; a page falling through has counted at most its `n_results`
growth and stays within the limit. -/
theorem redPage_bound (l : Int) (f : Option String) (u raw : Bool)
    (qr : QueryResponse) (seen : List JVal) (n : Int) (hn : n < l)
    (hcnt : countsNonnegB (respOf qr) = true) (hcons : respConsistent qr) :
    (∀ ys e, redPage (some l) f u raw qr seen n = .raisedP ys e →
      (countedYields ys : Int) + n ≤ l) ∧
    (∀ ys, redPage (some l) f u raw qr seen n = .doneP ys →
      (countedYields ys : Int) + n ≤ l) ∧
    (∀ ys seen' n', redPage (some l) f u raw qr seen n = .contP ys seen' n' →
      (countedYields ys : Int) + n ≤ n' ∧ (countedYields ys : Int) + n ≤ l) := by
  by_cases hraw : raw = true
  · cases har : addReturned qr n with
    | error pe =>
      refine ⟨?_, ?_, ?_⟩
      · intro ys e h
        simp only [redPage, hraw, if_true, har, PageOut.raisedP.injEq] at h
        obtain ⟨rfl, rfl⟩ := h
        rw [countedYields_nil]
        omega
      · intro ys h; simp [redPage, hraw, har] at h
      · intro ys seen' n' h; simp [redPage, hraw, har] at h
    | ok n0 =>
      have hmono := addReturned_mono qr n n0 hcnt hcons har
      refine ⟨?_, ?_, ?_⟩
      · intro ys e h; simp [redPage, hraw, har] at h
      · intro ys h; simp [redPage, hraw, har] at h
      · intro ys seen' n' h
        simp only [redPage, hraw, if_true, har, PageOut.contP.injEq] at h
        obtain ⟨rfl, rfl, rfl⟩ := h
        rw [countedYields_cons_un _ _ (by rfl), countedYields_nil]
        omega
  · have hraw' : raw = false := by simpa using hraw
    cases qr with
    | jsonQR res r =>
      cases f with
      | none =>
        cases har : addReturned (.jsonQR res r) n with
        | error pe =>
          refine ⟨?_, ?_, ?_⟩
          · intro ys e h
            simp only [redPage, hraw', Bool.false_eq_true, if_false, har,
              PageOut.raisedP.injEq] at h
            obtain ⟨rfl, rfl⟩ := h
            rw [countedYields_nil]
            omega
          · intro ys h; simp [redPage, hraw', har] at h
          · intro ys seen' n' h; simp [redPage, hraw', har] at h
        | ok n0 =>
          have hmono := addReturned_mono (.jsonQR res r) n n0 hcnt hcons har
          refine ⟨?_, ?_, ?_⟩
          · intro ys e h; simp [redPage, hraw', har] at h
          · intro ys h; simp [redPage, hraw', har] at h
          · intro ys seen' n' h
            simp only [redPage, hraw', Bool.false_eq_true, if_false, har,
              PageOut.contP.injEq] at h
            obtain ⟨rfl, rfl, rfl⟩ := h
            rw [countedYields_cons_un _ _ (by rfl), countedYields_nil]
            omega
      | some fl =>
        cases hd : dotIndex fl res with
        | error pe =>
          refine ⟨?_, ?_, ?_⟩
          · intro ys e h
            simp only [redPage, hraw', Bool.false_eq_true, if_false, hd,
              PageOut.raisedP.injEq] at h
            obtain ⟨rfl, rfl⟩ := h
            rw [countedYields_nil]
            omega
          · intro ys h; simp [redPage, hraw', hd] at h
          · intro ys seen' n' h; simp [redPage, hraw', hd] at h
        | ok items =>
          obtain ⟨s1, s2, s3, s4⟩ := jsonItemsLoop_spec u l items seen n
          by_cases hr : (jsonItemsLoop u (some l) items seen n).ret = true
          · refine ⟨?_, ?_, ?_⟩
            · intro ys e h; simp [redPage, hraw', hd, hr] at h
            · intro ys h
              simp only [redPage, hraw', Bool.false_eq_true, if_false, hd, hr,
                if_true, PageOut.doneP.injEq] at h
              subst h
              have := s3 hn
              omega
            · intro ys seen' n' h; simp [redPage, hraw', hd, hr] at h
          · refine ⟨?_, ?_, ?_⟩
            · intro ys e h; simp [redPage, hraw', hd, hr] at h
            · intro ys h; simp [redPage, hraw', hd, hr] at h
            · intro ys seen' n' h
              simp only [redPage, hraw', Bool.false_eq_true, if_false, hd, hr,
                PageOut.contP.injEq] at h
              obtain ⟨rfl, rfl, rfl⟩ := h
              have := s3 hn
              exact ⟨by omega, by omega⟩
    | csvQR text r =>
      obtain ⟨s1, s2, s3, s4⟩ := csvRowsLoop_spec l ((r.csvRows.head?).getD [])
        r.csvRows.tail n
      by_cases hr : (csvRowsLoop (some l) ((r.csvRows.head?).getD [])
          r.csvRows.tail n).ret = true
      · refine ⟨?_, ?_, ?_⟩
        · intro ys e h; simp [redPage, hraw', hr] at h
        · intro ys h
          simp only [redPage, hraw', Bool.false_eq_true, if_false, hr,
            if_true, PageOut.doneP.injEq] at h
          subst h
          rw [countedYields_append, countedYields_headYs]
          have := s3 hn
          omega
        · intro ys seen' n' h; simp [redPage, hraw', hr] at h
      · refine ⟨?_, ?_, ?_⟩
        · intro ys e h; simp [redPage, hraw', hr] at h
        · intro ys h; simp [redPage, hraw', hr] at h
        · intro ys seen' n' h
          simp only [redPage, hraw', Bool.false_eq_true, if_false, hr,
            PageOut.contP.injEq] at h
          obtain ⟨rfl, rfl, rfl⟩ := h
          rw [countedYields_append, countedYields_headYs]
          have := s3 hn
          exact ⟨by omega, by omega⟩
    | baseQR text r =>
      cases har : addReturned (.baseQR text r) n with
      | error pe =>
        refine ⟨?_, ?_, ?_⟩
        · intro ys e h
          simp only [redPage, hraw', Bool.false_eq_true, if_false, har,
            PageOut.raisedP.injEq] at h
          obtain ⟨rfl, rfl⟩ := h
          rw [countedYields_nil]
          omega
        · intro ys h; simp [redPage, hraw', har] at h
        · intro ys seen' n' h; simp [redPage, hraw', har] at h
      | ok n0 =>
        have hmono := addReturned_mono (.baseQR text r) n n0 hcnt hcons har
        refine ⟨?_, ?_, ?_⟩
        · intro ys e h; simp [redPage, hraw', har] at h
        · intro ys h; simp [redPage, hraw', har] at h
        · intro ys seen' n' h
          simp only [redPage, hraw', Bool.false_eq_true, if_false, har,
            PageOut.contP.injEq] at h
          obtain ⟨rfl, rfl, rfl⟩ := h
          rw [countedYields_cons_un _ _ (by rfl), countedYields_nil]
          omega

/-- Helper: the new client's after-page check only continues below the
limit. -/
theorem redAfterCheck_contA_lt (qt : String) (l : Int) (qr : QueryResponse)
    (n : Int) (q q' : Query)
    (h : redAfterCheck qt (some l) qr n q = .contA q') : n < l := by
  unfold redAfterCheck at h
  split at h
  · cases h
  · cases h
  · split at h
    · cases h
    · cases h
    · split at h
      · cases h
      · next hlim =>
        have : ¬ l ≤ n := by simpa [limitHit] using hlim
        omega

/-- Helper: the new client's whole page loop, entered below the limit on a
script whose responses all report nonnegative counts, keeps the counted
yields plus the entry `n_results` within the limit. -/
theorem redLoop_bound (qt : String) (l : Int) (f : Option String)
    (u raw : Bool) :
    ∀ fuel evs (q : Query) seen n,
      (∀ ev ∈ evs, evCountsOK ev = true) → n < l →
      (countedYields
        (redPagedLoop qt (some l) f u raw fuel q seen n evs).yields : Int)
          + n ≤ l := by
  intro fuel
  induction fuel with
  | zero =>
    intro evs q seen n _ hn
    simp only [redPagedLoop]
    rw [countedYields_nil]
    omega
  | succ fuel ih =>
    intro evs q seen n hall hn
    cases evs with
    | nil =>
      simp only [redPagedLoop]
      rw [countedYields_nil]
      omega
    | cons ev rest =>
      cases hpr : (rawQuery q DEFAULT_RETRIES (ev :: rest)).1 with
      | noEvents =>
        simp only [redPagedLoop, hpr]
        show (countedYields [] : Int) + n ≤ l
        rw [countedYields_nil]
        omega
      | raised e =>
        simp only [redPagedLoop, hpr]
        show (countedYields [] : Int) + n ≤ l
        rw [countedYields_nil]
        omega
      | ok qr =>
        obtain ⟨hqc, hqcons⟩ :=
          rawQuery_ok q DEFAULT_RETRIES (ev :: rest) qr hall hpr
        obtain ⟨pb1, pb2, pb3⟩ := redPage_bound l f u raw qr seen n hn hqc hqcons
        cases hp : redPage (some l) f u raw qr seen n with
        | raisedP ys e =>
          simp only [redPagedLoop, hpr, hp]
          exact pb1 ys e hp
        | doneP ys =>
          simp only [redPagedLoop, hpr, hp]
          exact pb2 ys hp
        | contP ys seen' n' =>
          obtain ⟨hle1, hle2⟩ := pb3 ys seen' n' hp
          cases hc : redAfterCheck qt (some l) qr n' q with
          | stopA oc =>
            simp only [redPagedLoop, hpr, hp, hc]
            show (countedYields ys : Int) + n ≤ l
            omega
          | contA q' =>
            have hlt : n' < l := redAfterCheck_contA_lt qt l qr n' q q' hc
            have hall' : ∀ ev2 ∈ (rawQuery q DEFAULT_RETRIES (ev :: rest)).2,
                evCountsOK ev2 = true :=
              fun y hy => hall y (rawQuery_sub q _ _ y hy)
            simp only [redPagedLoop, hpr, hp, hc]
            show (countedYields (ys ++
              (redPagedLoop qt (some l) f u raw fuel q' seen' n'
                (rawQuery q DEFAULT_RETRIES (ev :: rest)).2).yields) : Int)
                  + n ≤ l
            rw [countedYields_append]
            have := ih _ q' seen' n' hall' hlt
            omega

/-- C1 amended: the requested `limit` (when at least 1) bounds the number of
individually counted yields — `dot_index` items and CSV data rows, the yields
both clients guard with `n_results += 1; yield; if n_results >= limit:
return` — over every transport script; for `RawApiClient` this additionally
assumes the server's reported counts are nonnegative, since a negative
`X-RF-RETURNED-COUNT` would be added to `n_results` unchecked and could defer
the loop's limit check.  Whole-page results (`field=None`), raw responses and
the CSV header are yielded without being counted against the limit, and the
counterexample above shows the claim's unrestricted form fails for them. -/
theorem C1_amended :
    (∀ q0 l b f u evs, 1 ≤ l →
      (countedYields (apiPagedRun q0 (some l) b f u evs).yields : Int) ≤ l) ∧
    (∀ q0 l b f u raw evs, 1 ≤ l → (∀ ev ∈ evs, evCountsOK ev = true) →
      (countedYields (redPagedRun q0 (some l) b f u raw evs).yields : Int)
        ≤ l) := by
  constructor
  · intro q0 l b f u evs hl
    cases hqt : getQueryType q0 with
    | none => simp [apiPagedRun, hqt, countedYields_nil]; omega
    | some qt =>
      cases hbody : lookupKV q0 qt with
      | none => simp [apiPagedRun, hqt, hbody, countedYields_nil]; omega
      | some w =>
        cases w with
        | obj body =>
          have h0 : (0 : Int) < l := by omega
          have hb := apiLoop_bound qt l f u evs
            (dictSet q0 qt (.obj (dictSet body "limit" (.num (min b l)))))
            [] 0 h0
          simp only [apiPagedRun, hqt, hbody]
          simpa using hb
        | null => simp [apiPagedRun, hqt, hbody, countedYields_nil]; omega
        | bool bb => simp [apiPagedRun, hqt, hbody, countedYields_nil]; omega
        | num k => simp [apiPagedRun, hqt, hbody, countedYields_nil]; omega
        | str s => simp [apiPagedRun, hqt, hbody, countedYields_nil]; omega
        | arr xs => simp [apiPagedRun, hqt, hbody, countedYields_nil]; omega
        | pairv k v => simp [apiPagedRun, hqt, hbody, countedYields_nil]; omega
  · intro q0 l b f u raw evs hl hall
    cases hqt : getQueryType q0 with
    | none => simp [redPagedRun, hqt, countedYields_nil]; omega
    | some qt =>
      by_cases hagg : aggregateCheck q0 = true
      · simp [redPagedRun, hqt, hagg, countedYields_nil]; omega
      · have hagg' : aggregateCheck q0 = false := by simpa using hagg
        cases hbody : lookupKV q0 qt with
        | none => simp [redPagedRun, hqt, hagg', hbody, countedYields_nil]; omega
        | some w =>
          cases w with
          | obj body =>
            have h0 : (0 : Int) < l := by omega
            have hb := redLoop_bound qt l f u raw evs.length evs
              (dictSet q0 qt (.obj (dictSet body "limit" (.num (min b l)))))
              [] 0 hall h0
            simp only [redPagedRun, hqt, hagg', Bool.false_eq_true, if_false,
              hbody]
            simpa using hb
          | null => simp [redPagedRun, hqt, hagg', hbody, countedYields_nil]; omega
          | bool bb => simp [redPagedRun, hqt, hagg', hbody, countedYields_nil]; omega
          | num k => simp [redPagedRun, hqt, hagg', hbody, countedYields_nil]; omega
          | str s => simp [redPagedRun, hqt, hagg', hbody, countedYields_nil]; omega
          | arr xs => simp [redPagedRun, hqt, hagg', hbody, countedYields_nil]; omega
          | pairv k v => simp [redPagedRun, hqt, hagg', hbody, countedYields_nil]; omega

/-- C1 witness: a single JSON page of 3 `instances` items with `limit=1`
yields at most 1 counted item in either client. -/
theorem C1_witness :
    (countedYields (apiPagedRun [("entity", .obj [])] (some 1) 10
      (some "instances") false [.resp (instPage 3 none)]).yields : Int) ≤ 1 ∧
    (countedYields (redPagedRun [("entity", .obj [])] (some 1) 10
      (some "instances") false false [.resp (instPage 3 none)]).yields : Int)
        ≤ 1 := by
  exact ⟨C1_amended.1 [("entity", .obj [])] 1 10 (some "instances") false
      [.resp (instPage 3 none)] (by decide),
    C1_amended.2 [("entity", .obj [])] 1 10 (some "instances") false false
      [.resp (instPage 3 none)] (by decide) (by decide)⟩
